import Mathlib

/-!
Verification of the siard2sql translator (SIARD → SQLite SQL).

This file gives a shallow embedding in Lean 4 of the core of
`src/libsiardxml.cpp` together with the CLI driver `main` and proves, or
refutes, the frozen claims about the program.

Modelling conventions:
* C byte strings (`char*` / `std::string` used as byte buffers) are modelled
  as `List Nat`, one entry per byte; the `(uint8_t)` cast is `% 256`.
* `std::string` values holding names/paths are modelled as Lean `String`.
* The `std::regex` patterns of the type mapper are tiny (alternations of
  literals, one word boundary `\b`, one `\s*`); each `regex_search` call is
  embedded as a handwritten scanner on the character list that implements
  exactly that pattern, case-sensitively, with ECMAScript word/space classes
  restricted to ASCII (the only characters the patterns can match).
* `std::map` / `std::unordered_map` are modelled as association lists with
  overwrite-on-insert; only lookup/insert semantics are used by the code.
* File-system and ZIP access (out of scope per the spec) are abstracted:
  reading a LOB file is a parameter `readFile : String → Option (List Nat)`
  (`none` models `fopen` failure), and the tinyxml2 DOM is modelled by the
  inductive `XmlEl` below, with the `IDA_xml_utils` search routines
  re-implemented over it.
* The unbounded recursion of `append_complex_data_type_content` (which the C
  code performs on the call stack and which need not terminate on cyclic
  type graphs) is given an explicit `fuel` parameter.
-/

namespace Siard2Sql

/-! ## Byte-level helpers (ASCII codes used by the decoder) -/

/-- ASCII hexadecimal-digit test, as `strtol` base 16 accepts: 0-9, a-f, A-F. -/
def isHexDigitB (b : Nat) : Bool :=
  (48 ≤ b && b ≤ 57) || (97 ≤ b && b ≤ 102) || (65 ≤ b && b ≤ 70)

/-- Value of an ASCII hexadecimal digit (only meaningful when `isHexDigitB`). -/
def hexValB (b : Nat) : Nat :=
  if 48 ≤ b && b ≤ 57 then b - 48
  else if 97 ≤ b then b - 87
  else b - 55

/-! ## `IDA_siard_utils::siard_decode` (src/libsiardxml.cpp lines 353-375)

The C loop walks the NUL-terminated input; `siard_special(&s[i])` is
`!strncmp(&s[i], "\u00", 4)`.  On a match it reads the four characters at
offsets i+2 … i+5 into a buffer and converts them with `strtol(…, NULL, 16)`,
stores the low byte, and skips six positions; otherwise it copies the byte.
Reads at or past the end of the buffer see the NUL terminator; we model any
out-of-range read as byte 0. -/

/-- `siard_special`: the next four bytes are `\`, `u`, `0`, `0`
(ASCII 92, 117, 48, 48). -/
def siard_special : List Nat → Bool
  | 92 :: 117 :: 48 :: 48 :: _ => true
  | _ => false

/-- `strtol(hex, NULL, 16)` on a 4-character buffer: value of the maximal
leading run of hexadecimal digits (the buffer the code builds always starts
with two `'0'` characters, so the sign/space/0x handling of `strtol` never
fires). -/
def hexPrefixValAux : List Nat → Nat → Nat
  | [], acc => acc
  | b :: rest, acc => if isHexDigitB b then hexPrefixValAux rest (16 * acc + hexValB b) else acc

def strtol16 (bs : List Nat) : Nat := hexPrefixValAux bs 0

/-- The decoding loop of `siard_decode`.  For input position i the buffer
passed to `strtol` is `{s[i+2], s[i+3], s[i+4], s[i+5], 0}`; after a match
the index advances by 6 (`i += 5` plus the loop increment). -/
def siard_decode_go : List Nat → List Nat
  | [] => []
  | b :: bs =>
    if siard_special (b :: bs) then
      (strtol16 [bs.getD 1 0, bs.getD 2 0, bs.getD 3 0, bs.getD 4 0]) % 256
        :: siard_decode_go (bs.drop 5)
    else
      b % 256 :: siard_decode_go bs
termination_by l => l.length
decreasing_by
  · simp only [List.length_drop, List.length_cons]
    omega
  · simp

/-- `siard_decode` returns NULL (here `none`) with size 0 for the empty
string, otherwise the decoded byte array (allocation is assumed to
succeed). -/
def siard_decode (s : List Nat) : Option (List Nat) :=
  if s.isEmpty then none else some (siard_decode_go s)

/-- `has_siard_special_chars` (lines 313-323): some position of the input
starts with the four bytes `\u00`. -/
def has_siard_special_chars : List Nat → Bool
  | [] => false
  | b :: bs => siard_special (b :: bs) || has_siard_special_chars bs

/-! Specification-side decoder, written from the spec's words: "replaces each
`\u00HH` (uppercase or lowercase hex) with the byte `0xHH`; all other
characters pass through unchanged". -/

/-- A full 6-character escape starts here: `\u00` followed by two
hexadecimal digits. -/
def specEscape : List Nat → Bool
  | 92 :: 117 :: 48 :: 48 :: d1 :: d2 :: _ => isHexDigitB d1 && isHexDigitB d2
  | _ => false

/-- `Modelled from the spec:` byte-for-byte decoding, replacing each
6-character escape `\u00HH` by the byte `0xHH` and passing every other
character through unchanged. -/
def decode_spec : List Nat → List Nat
  | [] => []
  | b :: bs =>
    if specEscape (b :: bs) then
      (16 * hexValB (bs.getD 3 0) + hexValB (bs.getD 4 0)) :: decode_spec (bs.drop 5)
    else
      b % 256 :: decode_spec bs
termination_by l => l.length
decreasing_by
  · simp only [List.length_drop, List.length_cons]
    omega
  · simp

/-- The hypothesis of claim C4: every occurrence of the 4-byte sequence
`\u00` is followed by two hexadecimal digits (inside the string). -/
def goodEscapes (s : List Nat) : Bool :=
  (List.range s.length).all fun i =>
    !(siard_special (s.drop i)) ||
      (decide (i + 5 < s.length) && isHexDigitB (s.getD (i + 4) 0)
        && isHexDigitB (s.getD (i + 5) 0))

/-! ## `IDA_siard_utils::siard_type_to_sqlite3` (lines 105-182) -/

/-- The five SQLite column affinities (`enum SQLITE_COLTYPES`). -/
inductive SQLITE_COLTYPES where
  | COLTYPE_BLOB
  | COLTYPE_NUMERIC
  | COLTYPE_INTEGER
  | COLTYPE_REAL
  | COLTYPE_TEXT
deriving DecidableEq

open SQLITE_COLTYPES

/-- `coltype_to_str` (lines 79-99); note the leading blank in each name. -/
def coltype_to_str : SQLITE_COLTYPES → String
  | COLTYPE_BLOB => " BLOB"
  | COLTYPE_NUMERIC => " NUMERIC"
  | COLTYPE_INTEGER => " INTEGER"
  | COLTYPE_REAL => " REAL"
  | COLTYPE_TEXT => " TEXT"

/-- Does `pat` occur as the first characters of `s`. -/
def containsAt : List Char → List Char → Bool
  | [], _ => true
  | _ :: _, [] => false
  | p :: ps, c :: cs => p == c && containsAt ps cs

/-- `regex_search` for a pattern that is a plain literal: the literal occurs
somewhere in the subject. -/
def containsSub (pat : List Char) : List Char → Bool
  | [] => containsAt pat []
  | c :: cs => containsAt pat (c :: cs) || containsSub pat cs

/-- ECMAScript word character (`\w`): ASCII letter, digit or underscore. -/
def isWordChar (c : Char) : Bool :=
  (c.toNat ≥ 65 && c.toNat ≤ 90) || (c.toNat ≥ 97 && c.toNat ≤ 122) ||
  (c.toNat ≥ 48 && c.toNat ≤ 57) || c == '_'

/-- ECMAScript whitespace class `\s` restricted to the C locale:
space, \t, \n, \v, \f, \r. -/
def isSpaceRe (c : Char) : Bool :=
  c == ' ' || c == '\t' || c == '\n' || (c.toNat == 11) || (c.toNat == 12) || c == '\r'

/-- `regex_search` of `\bINT\b`: some occurrence of `INT` whose neighbouring
characters (when they exist) are not word characters.  `prev` is the
character just before the current position (`none` at the start). -/
def searchWordINT : Option Char → List Char → Bool
  | prev, 'I' :: 'N' :: 'T' :: rest =>
    ((match prev with | none => true | some p => !isWordChar p) &&
     (match rest with | [] => true | c :: _ => !isWordChar c))
    || searchWordINT (some 'I') ('N' :: 'T' :: rest)
  | prev, _ :: [] =>
    let _ := prev
    false
  | prev, c :: cs =>
    let _ := prev
    searchWordINT (some c) cs
  | _, [] => false

/-- After a literal `DEC`, the pattern `\s*\(` continues: skip whitespace,
then require `(`. -/
def matchSpacesParen : List Char → Bool
  | [] => false
  | c :: cs => if c == '(' then true else if isSpaceRe c then matchSpacesParen cs else false

/-- `regex_search` of `DEC\s*\(`. -/
def searchDECParen : List Char → Bool
  | [] => false
  | c :: cs =>
    (c == 'D' && (match cs with
      | 'E' :: 'C' :: rest => matchSpacesParen rest
      | _ => false))
    || searchDECParen cs

/-- `re_int` = `(BIG|SMALL)INT|INTEGER|\bINT\b|BOOL` searched in `s`. -/
def matches_re_int (s : List Char) : Bool :=
  containsSub "BIGINT".data s || containsSub "SMALLINT".data s ||
  containsSub "INTEGER".data s || searchWordINT none s || containsSub "BOOL".data s

/-- `re_numeric` = `NUMERIC|DECIMAL|DEC\s*\(` searched in `s`. -/
def matches_re_numeric (s : List Char) : Bool :=
  containsSub "NUMERIC".data s || containsSub "DECIMAL".data s || searchDECParen s

/-- `re_real` = `DOUBLE|FLOAT|REAL` searched in `s`. -/
def matches_re_real (s : List Char) : Bool :=
  containsSub "DOUBLE".data s || containsSub "FLOAT".data s || containsSub "REAL".data s

/-- `re_blob` = `BINARY|BLOB|VARBINARY` searched in `s`. -/
def matches_re_blob (s : List Char) : Bool :=
  containsSub "BINARY".data s || containsSub "BLOB".data s || containsSub "VARBINARY".data s

/-- The uncached body of `siard_type_to_sqlite3` (lines 164-179): the
if/else-if cascade over the four `regex_search` calls, TEXT by default. -/
def computeAffinity (s : String) : SQLITE_COLTYPES :=
  if matches_re_int s.data then COLTYPE_INTEGER
  else if matches_re_numeric s.data then COLTYPE_NUMERIC
  else if matches_re_real s.data then COLTYPE_REAL
  else if matches_re_blob s.data then COLTYPE_BLOB
  else COLTYPE_TEXT

/-- The `static unordered_map` type cache, modelled as an association list. -/
abbrev TypeCache := List (String × SQLITE_COLTYPES)

/-- One call of `siard_type_to_sqlite3`: first consult the cache
(`typecache.at`), else compute and insert (`typecache[s] = ret`). -/
def siard_type_to_sqlite3 (cache : TypeCache) (s : String) :
    SQLITE_COLTYPES × TypeCache :=
  match List.lookup s cache with
  | some r => (r, cache)
  | none =>
    let r := computeAffinity s
    (r, (s, r) :: cache)

/-- A sequence of queries against the (initially shared, process-static)
cache, returning the answers in order. -/
def runTypeQueries : List String → TypeCache → List SQLITE_COLTYPES × TypeCache
  | [], cache => ([], cache)
  | q :: qs, cache =>
    let (r, cache') := siard_type_to_sqlite3 cache q
    let (rs, cache'') := runTypeQueries qs cache'
    (r :: rs, cache'')

/-! ## `IDA_file_utils::is_absolute` and
`IDA_SIARDlobfolder::combine_lobfolders` (lines 590-600 and 1648-1670) -/

/-- `is_absolute`: non-empty and starting with a slash. -/
def is_absolute (path : String) : Bool :=
  match path.data with
  | [] => false
  | c :: _ => c == '/'

/-- `combine_lobfolders` (lines 1648-1670), verbatim control flow. -/
def combine_lobfolders (parent_lobfolder lobfolder : String) : String :=
  if parent_lobfolder.isEmpty || is_absolute lobfolder then
    lobfolder
  else
    if lobfolder.isEmpty then
      parent_lobfolder
    else
      parent_lobfolder ++ "/" ++ lobfolder

/-- `Modelled from the spec:` the three-rule combinator of §3 of the spec, in
the spec's rule order: declared absolute ⇒ declared; parent empty ⇒ declared;
declared empty ⇒ parent; otherwise `parent + "/" + declared`. -/
def combine_spec (parent declared : String) : String :=
  if is_absolute declared then declared
  else if parent.isEmpty then declared
  else if declared.isEmpty then parent
  else parent ++ "/" ++ declared

/-! ## The tinyxml2 DOM and the `IDA_xml_utils` searches used by the
content emitter

Only the searches the content path needs are embedded: depth-first first
match (`find_element_by_tag` with the default `DF`), breadth-first first
match (`BF`, used for the `aN`/`uN` tags), and the depth-1 element listing
used to collect `<row>` elements. -/

inductive XmlEl where
  | el (tag : String) (text : Option String) (fileAttr : Option String)
      (children : List XmlEl)

def XmlEl.tag : XmlEl → String
  | .el t _ _ _ => t

def XmlEl.text : XmlEl → Option String
  | .el _ t _ _ => t

def XmlEl.fileAttr : XmlEl → Option String
  | .el _ _ f _ => f

def XmlEl.children : XmlEl → List XmlEl
  | .el _ _ _ cs => cs

mutual

def XmlEl.size : XmlEl → Nat
  | .el _ _ _ cs => 1 + sizeL cs

def sizeL : List XmlEl → Nat
  | [] => 0
  | e :: es => XmlEl.size e + sizeL es

end

theorem sizeL_append (a b : List XmlEl) : sizeL (a ++ b) = sizeL a + sizeL b := by
  induction a with
  | nil => simp [sizeL]
  | cons e es ih => simp [sizeL, ih]; omega

theorem size_pos (e : XmlEl) : 0 < e.size := by
  cases e with
  | el t x f cs => simp only [XmlEl.size]; omega

/-- `depth_first_search_element_by_tag` (lines 1017-1029) over a work list of
elements: check an element, then its children, then its later siblings. -/
def dfsFindList (tagname : String) : List XmlEl → Option XmlEl
  | [] => none
  | e :: rest =>
    if e.tag == tagname then some e
    else
      match dfsFindList tagname e.children with
      | some r => some r
      | none => dfsFindList tagname rest
termination_by l => sizeL l
decreasing_by
  · simp only [sizeL]
    have := size_pos e
    cases e with
    | el t x f cs => simp [XmlEl.size, XmlEl.children]; omega
  · simp only [sizeL]
    have := size_pos e
    omega

/-- `breadth_first_search_element_by_tag` (lines 993-1013): a FIFO queue of
elements, children appended behind the remaining entries. -/
def bfsFindAux (tagname : String) : List XmlEl → Option XmlEl
  | [] => none
  | e :: rest =>
    if e.tag == tagname then some e
    else bfsFindAux tagname (rest ++ e.children)
termination_by q => sizeL q
decreasing_by
  simp only [sizeL, sizeL_append]
  have := size_pos e
  cases e with
  | el t x f cs => simp [XmlEl.size, XmlEl.children]; omega

/-- `find_element_by_tag(el, tag, DF)`: the search starts at the children of
the given element. -/
def find_element_DF (e : XmlEl) (tagname : String) : Option XmlEl :=
  dfsFindList tagname e.children

/-- `find_element_by_tag(el, tag, BF)` for an optional element. -/
def find_element_BF (e : XmlEl) (tagname : String) : Option XmlEl :=
  bfsFindAux tagname e.children

/-- `find_elements_by_tag(el, tag, v, 1)` (depth-first, maximum depth 1):
exactly the immediate children carrying the tag, in document order. -/
def childElementsWithTag (e : XmlEl) (tagname : String) : List XmlEl :=
  e.children.filter (fun c => c.tag == tagname)

/-! ## `IDA_SIARD_type_attribute` (lines 1229-1331) -/

structure IDA_SIARD_type_attribute where
  name : String := ""
  type : String := ""
  typeSchema : String := ""
  typeName : String := ""
  cardinality : Nat := 0
  base : String := ""
deriving DecidableEq

namespace IDA_SIARD_type_attribute

/-- `getTypeOrTypeName` (lines 1269-1271). -/
def getTypeOrTypeName (a : IDA_SIARD_type_attribute) : String :=
  if a.type.isEmpty then a.typeName else a.type

/-- `get_extended_category` (lines 1311-1328). -/
def get_extended_category (a : IDA_SIARD_type_attribute) : String :=
  if a.cardinality > 0 then "array"
  else if !a.type.isEmpty then "simple"
  else if !a.typeSchema.isEmpty && !a.typeName.isEmpty then "udt"
  else if !a.base.isEmpty then "distinct"
  else "unknown"

end IDA_SIARD_type_attribute

/-! ## `IDA_SIARDtypenode` (lines 1348-1455) -/

structure IDA_SIARDtypenode where
  schema : String := ""
  name : String := ""
  category : String := ""
  attribute_list : List IDA_SIARD_type_attribute := []
deriving DecidableEq

namespace IDA_SIARDtypenode

/-- `empty()` (lines 1372-1374): only the name is consulted. -/
def isEmptyNode (n : IDA_SIARDtypenode) : Bool := n.name.isEmpty

def add_attribute (n : IDA_SIARDtypenode) (a : IDA_SIARD_type_attribute) :
    IDA_SIARDtypenode :=
  { n with attribute_list := n.attribute_list ++ [a] }

/-- The array constructor (lines 1426-1437): synthetic name
`ARRAY<cardinality>_<suffix>` and a single `ARRAY_ATT` attribute holding the
element type and the cardinality. -/
def mkArray (schema_name suffix type typeSchema typeName : String)
    (cardinality : Nat) : IDA_SIARDtypenode :=
  { schema := schema_name
    name := "ARRAY" ++ toString cardinality ++ "_" ++ suffix
    category := "array"
    attribute_list := [{ name := "ARRAY_ATT", type := type,
                         typeSchema := typeSchema, typeName := typeName,
                         cardinality := cardinality, base := "" }] }

/-- The distinct constructor (lines 1442-1451): a single `DISTINCT_ATT`
attribute holding the base type. -/
def mkDistinct (schema_name type_name base : String) : IDA_SIARDtypenode :=
  { schema := schema_name
    name := type_name
    category := "distinct"
    attribute_list := [{ name := "DISTINCT_ATT", type := "", typeSchema := "",
                         typeName := "", cardinality := 0, base := base }] }

end IDA_SIARDtypenode

/-! ## `IDA_SIARDdatatype_table` (lines 1468-1553) and the process global
`DataType_Table` (line 1556) -/

/-- Overwrite-on-insert for an association list (`std::map::operator[]`
assignment). -/
def assocSet {α β : Type} [DecidableEq α] (k : α) (v : β) :
    List (α × β) → List (α × β)
  | [] => [(k, v)]
  | (k', v') :: rest =>
    if k' = k then (k, v) :: rest else (k', v') :: assocSet k v rest

structure IDA_SIARDdatatype_table where
  datatype_dict : List ((String × String) × IDA_SIARDtypenode) := []
  datatype_order : List ((String × String) × Nat) := []
  datatype_count : Nat := 0
  datatype_array_count : Nat := 0
deriving DecidableEq

namespace IDA_SIARDdatatype_table

/-- The state of the global `DataType_Table` at process start (constructor,
lines 1478-1482, plus zero member initialisers). -/
def empty : IDA_SIARDdatatype_table := {}

/-- `get_typenode` (lines 1492-1499): `map::at` with the default-constructed
node on `std::out_of_range`. -/
def get_typenode (d : IDA_SIARDdatatype_table) (type_schema type_name : String) :
    IDA_SIARDtypenode :=
  (List.lookup (type_schema, type_name) d.datatype_dict).getD {}

/-- `add_type` (lines 1515-1520). -/
def add_type (d : IDA_SIARDdatatype_table) (type_schema type_name : String)
    (typenode : IDA_SIARDtypenode) : IDA_SIARDdatatype_table :=
  { d with
    datatype_dict := assocSet (type_schema, type_name) typenode d.datatype_dict
    datatype_order := assocSet (type_schema, type_name) d.datatype_count d.datatype_order
    datatype_count := d.datatype_count + 1 }

/-- `add_array_data_type` (lines 1525-1538): consume the global array
counter, build the synthetic array node, insert it, return its name. -/
def add_array_data_type (d : IDA_SIARDdatatype_table)
    (schema_name subname type typeSchema typeName : String)
    (cardinality : Nat) : String × IDA_SIARDdatatype_table :=
  let suffix := subname ++ "_" ++ toString d.datatype_array_count
  let d1 := { d with datatype_array_count := d.datatype_array_count + 1 }
  let tnode := IDA_SIARDtypenode.mkArray schema_name suffix type typeSchema
      typeName cardinality
  let new_type_name := tnode.name
  (new_type_name, d1.add_type schema_name new_type_name tnode)

end IDA_SIARDdatatype_table

/-! ## Metadata model

The metadata walker reads the `header/metadata.xml` DOM through
`IDA_xml_utils` tag lookups; the records below hold exactly the values those
lookups produce for each `<type>`, `<column>`, `<table>` and `<schema>`
element (the XML-access layer itself is out of the claims' scope). -/

/-- One `<type>` element of a schema's `<types>` list.  `attributes` is
`none` when the `<attributes>` child element is absent and `some l` when it
is present with the listed `<attribute>` children. -/
structure TypeDef where
  category : String := ""
  name : String := ""
  base : String := ""
  attributes : Option (List IDA_SIARD_type_attribute) := none
deriving DecidableEq

/-- One `<attribute>` of a udt `<type>` (lines 2366-2393): udt attributes
are kept, arrays are lifted into the Data Type Table and the attribute is
rewritten to reference the generated entry, `distinct` attributes are
dropped with a warning, anything else is kept as a simple attribute. -/
def udt_att_step (schema_name : String)
    (acc : IDA_SIARDtypenode × IDA_SIARDdatatype_table)
    (att : IDA_SIARD_type_attribute) :
    IDA_SIARDtypenode × IDA_SIARDdatatype_table :=
  let cat := att.get_extended_category
  if cat == "udt" then (acc.1.add_attribute att, acc.2)
  else if cat == "array" then
    let ar := acc.2.add_array_data_type schema_name
        att.name att.type att.typeSchema att.typeName att.cardinality
    let A := { att with
      type := "", cardinality := 0, typeSchema := schema_name, typeName := ar.1 }
    (acc.1.add_attribute A, ar.2)
  else if cat == "distinct" then
    -- a distinct type is not allowed as type attribute: warning only,
    -- the attribute is not added
    (acc.1, acc.2)
  else (acc.1.add_attribute att, acc.2)

/-- Processing of a single `<type>` element by `add_complex_data_type`
(lines 2339-2407). -/
def add_one_type (dtt : IDA_SIARDdatatype_table) (schema_name : String)
    (td : TypeDef) : IDA_SIARDdatatype_table :=
  if !td.category.isEmpty && !td.name.isEmpty then
    if td.category == "distinct" then
      dtt.add_type schema_name td.name
        (IDA_SIARDtypenode.mkDistinct schema_name td.name td.base)
    else if td.category == "udt" then
      match td.attributes with
      | none => dtt
      | some atts =>
        let init : IDA_SIARDtypenode :=
          { schema := schema_name, name := td.name, category := "udt" }
        let r := atts.foldl (udt_att_step schema_name) (init, dtt)
        r.2.add_type schema_name td.name r.1
    else dtt
  else dtt

/-- `add_complex_data_type` over the `<type>` children of one schema. -/
def add_complex_data_type (dtt : IDA_SIARDdatatype_table) (schema_name : String)
    (tds : List TypeDef) : IDA_SIARDdatatype_table :=
  tds.foldl (fun d td => add_one_type d schema_name td) dtt

/-! ## The content formatters (`IDA_SIARDcontent`, lines 1828-2064) -/

/-- The single-quote character, ASCII 39. -/
def sqc : Char := Char.ofNat 39

/-- The SQL empty content literal: two single quotes. -/
def emptyContent : String := String.mk [sqc, sqc]

/-- One lowercase hexadecimal digit. -/
def hexDigitChar (n : Nat) : Char :=
  if n < 10 then Char.ofNat (48 + n) else Char.ofNat (87 + n)

/-- Two lowercase hexadecimal digits for one byte (`sprintf("%02x", b)`). -/
def byteToHex (b : Nat) : String :=
  String.mk [hexDigitChar (b % 256 / 16), hexDigitChar (b % 16)]

def bytesToHex (bs : List Nat) : String :=
  String.join (bs.map byteToHex)

/-- A blob literal `X\x27…\x27` from bytes
(`char_array_to_blob_literal_append` / `file_to_blob_literal_append`). -/
def blob_literal (bs : List Nat) : String :=
  "X" ++ String.mk [sqc] ++ bytesToHex bs ++ String.mk [sqc]

/-- `enclose_sqlite_single_quote` (lines 304-307): wrap in single quotes,
doubling every single quote inside. -/
def enclose_sqlite_single_quote (s : String) : String :=
  String.mk ([sqc] ++ (s.data.map fun c => if c == sqc then [sqc, sqc] else [c]).flatten ++ [sqc])

/-- The bytes of a string cell text (SIARD metadata is ASCII/UTF-8; the
formatters treat the text one byte at a time). -/
def stringBytes (s : String) : List Nat := s.data.map Char.toNat

/-- The per-run environment of the content emitter: the SIARD URI and the
LOB file reader.  `readFile f` stands for `unzipURI` + `fopen`/`fread` on
`f`; `none` models an unreadable file (the code then emits `X\x27\x27` and
continues). -/
structure LobEnv where
  siardURI : String
  readFile : String → Option (List Nat)

/-- `IDA_SIARDlobfolder::get_real_lobfoler` (lines 1688-1695): direct lookup
of the tree path, empty string when absent.  The per-column map itself is
built by `IDA_SIARDlobfolder::init` from the column XML, which is not part
of the claims; it enters the model as data. -/
def get_real_lobfoler (info : List (String × String)) (treepath : String) : String :=
  (List.lookup treepath info).getD ""

/-- `append_simple_data_type_content` (enum version, lines 1836-1946). -/
def append_simple_data_type_content (env : LobEnv)
    (lobinfo : List (String × String)) (s : String) (el : Option XmlEl)
    (simpletype : SQLITE_COLTYPES) (textifyblob : Bool) (treepath : String) :
    String :=
  match el with
  | none => s ++ emptyContent
  | some e =>
    let el_file := (e.fileAttr).getD ""
    if !el_file.isEmpty then
      let lobfolder := get_real_lobfoler lobinfo treepath
      let lob_file :=
        if lobfolder.isEmpty then combine_lobfolders env.siardURI el_file
        else combine_lobfolders lobfolder el_file
      let s1 := if simpletype == COLTYPE_TEXT || textifyblob then s ++ "CAST(" else s
      let s2 := match env.readFile lob_file with
        | none => s1 ++ blob_literal []
        | some bytes => s1 ++ blob_literal bytes
      if simpletype == COLTYPE_TEXT || textifyblob then s2 ++ " AS TEXT)" else s2
    else
      let col_text := (e.text).getD ""
      if simpletype == COLTYPE_INTEGER || simpletype == COLTYPE_REAL
          || simpletype == COLTYPE_NUMERIC then
        s ++ col_text
      else
        if !has_siard_special_chars (stringBytes col_text) then
          s ++ enclose_sqlite_single_quote col_text
        else
          s ++ "CAST(" ++ blob_literal (siard_decode_go (stringBytes col_text))
            ++ " AS TEXT)"

/-- `append_simple_data_type_content` (string version, lines 1828-1833): the
SIARD type string goes through `siard_type_to_sqlite3`; by the cache
transparency property the result is `computeAffinity`. -/
def append_simple_st (env : LobEnv) (lobinfo : List (String × String))
    (s : String) (el : Option XmlEl) (siard_type : String) (textifyblob : Bool)
    (treepath : String) : String :=
  append_simple_data_type_content env lobinfo s el (computeAffinity siard_type)
    textifyblob treepath

mutual

/-- `append_complex_data_type_content` (lines 1950-2064).  `fuel` bounds the
recursion depth, which the C code leaves unbounded (it would not return on a
cyclic type graph); every claim instantiates `fuel` large enough. -/
def append_complex_data_type_content (env : LobEnv)
    (lobinfo : List (String × String)) (dtt : IDA_SIARDdatatype_table)
    (fuel : Nat) (s : String) (el : Option XmlEl)
    (siard_typeSchema siard_typeName : String) (depth : Nat)
    (treepath : String) : String :=
  match fuel with
  | 0 => s
  | fuel + 1 =>
    let indent := String.mk (List.replicate (1 + depth) ' ')
    match el with
    | none => s ++ emptyContent
    | some e =>
      let tnode := dtt.get_typenode siard_typeSchema siard_typeName
      if tnode.isEmptyNode then
        -- not in the Data Type Table: treat as a simple type, forcing
        -- textified blobs
        append_simple_st env lobinfo s (some e) siard_typeName true treepath
      else if tnode.category == "array" then
        -- the unique ARRAY_ATT attribute carries element type and
        -- cardinality (the code reads the first list entry)
        let att := tnode.attribute_list.headD {}
        let s1 := s ++ "json_array(\n"
        let s2 := append_array_items env lobinfo dtt fuel s1 e att.typeSchema
            att.getTypeOrTypeName depth treepath indent att.cardinality 1
        let s3 := s2 ++ ")"
        if depth > 0 then s3 ++ "\n" else s3
      else if tnode.category == "distinct" then
        let dis_base := (tnode.attribute_list.headD {}).base
        append_complex_data_type_content env lobinfo dtt fuel s (some e) ""
          dis_base (depth + 1) treepath
      else if tnode.category == "udt" then
        let s1 := s ++ "json_object(\n"
        let s2 := append_udt_atts env lobinfo dtt fuel s1 e
            tnode.attribute_list 1 tnode.attribute_list.length depth treepath
            indent
        let s3 := s2 ++ ")"
        if depth > 0 then s3 ++ "\n" else s3
      else s
termination_by (fuel, 0)

/-- The `json_array` loop of lines 1987-2006: items `i = 1 … card`, each
located breadth-first by tag `a<i>`; a missing `<a<i>>` contributes the
empty content. -/
def append_array_items (env : LobEnv) (lobinfo : List (String × String))
    (dtt : IDA_SIARDdatatype_table) (fuel : Nat) (s : String) (e : XmlEl)
    (arr_schema arr_type : String) (depth : Nat) (treepath indent : String)
    (card i : Nat) : String :=
  if card < i then s
  else
    let atag := "a" ++ toString i
    match find_element_BF e atag with
    | some a =>
      let s1 := s ++ indent
      let s2 := append_complex_data_type_content env lobinfo dtt fuel s1
          (some a) arr_schema arr_type (depth + 1) (treepath ++ "/" ++ atag)
      let s3 := if i < card then s2 ++ ",\n" else s2
      append_array_items env lobinfo dtt fuel s3 e arr_schema arr_type depth
        treepath indent card (i + 1)
    | none =>
      let s1 := s ++ indent ++ emptyContent
      let s2 := if i < card then s1 ++ ",\n" else s1
      append_array_items env lobinfo dtt fuel s2 e arr_schema arr_type depth
        treepath indent card (i + 1)
termination_by (fuel, card + 1 - i)

/-- The `json_object` loop of lines 2025-2050: the k-th declared attribute
pairs with the breadth-first child `u<k>`; a missing `<u<k>>` contributes
the empty content after the attribute-name label. -/
def append_udt_atts (env : LobEnv) (lobinfo : List (String × String))
    (dtt : IDA_SIARDdatatype_table) (fuel : Nat) (s : String) (e : XmlEl)
    (atts : List IDA_SIARD_type_attribute) (att_no total : Nat) (depth : Nat)
    (treepath indent : String) : String :=
  match atts with
  | [] => s
  | att :: rest =>
    let utag := "u" ++ toString att_no
    let u := find_element_BF e utag
    let s1 := s ++ indent ++ String.mk [sqc] ++ att.name ++ String.mk [sqc] ++ ", "
    let s2 := match u with
      | some ue => append_complex_data_type_content env lobinfo dtt fuel s1
          (some ue) att.typeSchema att.getTypeOrTypeName (depth + 1)
          (treepath ++ "/" ++ att.name)
      | none => s1 ++ emptyContent
    let s3 := if att_no + 1 ≤ total then s2 ++ ",\n" else s2
    append_udt_atts env lobinfo dtt fuel s3 e rest (att_no + 1) total depth
      treepath indent
termination_by (fuel, atts.length + 1)

end

/-! ## Row emission (`IDA_SIARDcontent::tree_to_sql`, lines 2071-2176) -/

/-- The per-column data the walker hands to the content emitter: the column
name (`siard_colname_v`), the column's (possibly rewritten) type attribute
(`siard_coltype_v`) and its lobfolder map (`siard_lobfolder_info_v`). -/
structure ColInfo where
  colname : String
  coltype : IDA_SIARD_type_attribute
  lobinfo : List (String × String) := []

/-- One `<row>` turned into one `INSERT INTO` statement (lines 2099-2173).
Columns are looked up depth-first by tag `c<colid+1>`; simple columns use
the precomputed affinity of `getTypeOrTypeName`, complex columns the
complex formatter with depth 0. -/
def row_to_insert (env : LobEnv) (dtt : IDA_SIARDdatatype_table) (fuel : Nat)
    (tablename : String) (cols : List ColInfo) (row : XmlEl) : String :=
  let ncols := cols.length
  let start := "INSERT INTO " ++ String.mk [sqc] ++ tablename ++ String.mk [sqc]
      ++ " VALUES ("
  (cols.enum.foldl (fun acc p =>
    let colid := p.1
    let ci := p.2
    let colname_tag := "c" ++ toString (colid + 1)
    let col := find_element_DF row colname_tag
    let treepath0 := "/" ++ ci.colname
    let acc1 :=
      if ci.coltype.typeSchema.isEmpty then
        append_simple_data_type_content env ci.lobinfo acc col
          (computeAffinity ci.coltype.getTypeOrTypeName) false treepath0
      else
        append_complex_data_type_content env ci.lobinfo dtt fuel acc col
          ci.coltype.typeSchema ci.coltype.getTypeOrTypeName 0 treepath0
    if colid < ncols - 1 then acc1 ++ ",\n" else acc1) start) ++ ");\n"

/-- The content emitter on a successfully loaded `table<N>.xml` root: one
`INSERT` per `<row>` child (depth 1), in document order. -/
def content_tree_to_sql (env : LobEnv) (dtt : IDA_SIARDdatatype_table)
    (fuel : Nat) (tablename : String) (cols : List ColInfo) (root : XmlEl) :
    List String :=
  (childElementsWithTag root "row").map (row_to_insert env dtt fuel tablename cols)

/-! ## The metadata walker (`IDA_SIARDmetadata::tree_to_sql`,
lines 2546-2831)

The walker's input is the `metadata.xml` DOM read through `IDA_xml_utils`
tag lookups; the records below carry the values those lookups return per
`<table>` and `<schema>`.  The output is modelled at statement granularity
(`sqlout <<` of one SQL statement or comment = one `Stmt`; the candidate
keys of a table, which the code concatenates into a single string before
writing, are kept as one `Stmt` per `CREATE UNIQUE INDEX`). -/

inductive Stmt where
  | comment (text : String)
  | createTable (table : String) (sql : String)
  | insertInto (table : String) (sql : String)
  | createUniqueIndex (table : String) (sql : String)
deriving DecidableEq

/-- One `<table>` element together with its (out-of-model) content file:
`content = some root` when `content/<schema>/<table>/<table>.xml` exists and
parses, `none` when the file is missing or fails to load (zero rows either
way).  `collobs` holds, per column, the lobfolder map that
`IDA_SIARDlobfolder::init` builds from the column XML. -/
structure TableMeta where
  name : String
  folder : String := ""
  columns : List IDA_SIARD_type_attribute := []
  collobs : List (List (String × String)) := []
  primaryKey : List String := []
  candidateKeys : List (String × List String) := []
  content : Option XmlEl := none

structure SchemaMeta where
  name : String
  folder : String := ""
  types : List TypeDef := []
  tables : List TableMeta := []

structure Metadata where
  version : String := "unknown"
  siard_lobfolder : String := ""
  schemas : List SchemaMeta := []

/-- The walker's running state: the global Data Type Table, the duplicate
bookkeeping (`seen_tables`, `rep_tables`, `table_first_schema`), the global
candidate-key counter `iuk`, and the statement stream written so far. -/
structure EmitSt where
  dtt : IDA_SIARDdatatype_table
  seen_tables : List String := []
  rep_tables : List (String × String) := []
  table_first_schema : List (String × String) := []
  iuk : Nat := 0
  out : List Stmt := []

/-- `std::set` insert for the replicated-table set. -/
def setInsertPair (l : List (String × String)) (p : String × String) :
    List (String × String) :=
  if l.contains p then l else l ++ [p]

/-- Replace the last character of a non-empty string (the `s[s.size()-1] =
c` idiom closing the column lists). -/
def replaceLastChar (s : String) (c : Char) : String :=
  String.mk (s.data.dropLast ++ [c])

/-- The per-column step of the table loop (lines 2640-2701): build the
column's `CREATE TABLE` fragment, rewrite array columns through the Data
Type Table, and record the (possibly rewritten) type attribute. -/
def processColumn (schema_name : String)
    (acc : IDA_SIARDdatatype_table × String × List ColInfo)
    (p : Nat × IDA_SIARD_type_attribute) (ncols : Nat)
    (collobs : List (List (String × String))) :
    IDA_SIARDdatatype_table × String × List ColInfo :=
  let dtt := acc.1
  let sql := acc.2.1
  let infos := acc.2.2
  let ic := p.1
  let col := p.2
  let column_name := col.name
  let ext_category := col.get_extended_category
  let step :
      IDA_SIARDdatatype_table × IDA_SIARD_type_attribute × String × Bool :=
    if ext_category == "simple" then
      (dtt, { col with typeSchema := "" }, col.type, false)
    else if ext_category == "array" then
      let ar := dtt.add_array_data_type schema_name col.name
          col.type col.typeSchema col.typeName col.cardinality
      let sct := "ARRAY(" ++ toString col.cardinality ++ ") of " ++ col.type
      let col' := { col with
        type := "", typeSchema := schema_name, typeName := ar.1 }
      (ar.2, col', sct, true)
    else
      let sct := if col.typeName.isEmpty then "(udt)" else col.typeName
      (dtt, col, sct, true)
  let dtt1 := step.1
  let tname := step.2.1
  let sct0 := step.2.2.1
  let complex_type := step.2.2.2
  let siard_column_type :=
    if complex_type then sct0 ++ " [complex type, encoded as json text]"
    else sct0
  let sqlite3_type := coltype_to_str (computeAffinity siard_column_type)
  let sql1 := sql ++ String.mk [sqc] ++ column_name ++ String.mk [sqc] ++ " "
      ++ sqlite3_type
  let sql2 := if ic < ncols - 1 then sql1 ++ ",\n" else sql1
  (dtt1, sql2, infos ++ [{ colname := column_name, coltype := tname,
                           lobinfo := collobs.getD ic [] }])

/-- The column loop of one table (lines 2640-2701), starting from the
`CREATE TABLE` opening. -/
def table_columns_fold (schema_name : String)
    (dtt : IDA_SIARDdatatype_table) (tab : TableMeta) :
    IDA_SIARDdatatype_table × String × List ColInfo :=
  tab.columns.enum.foldl
    (fun acc pr => processColumn schema_name acc pr tab.columns.length tab.collobs)
    (dtt, "CREATE TABLE " ++ String.mk [sqc] ++ tab.name ++ String.mk [sqc]
      ++ " (\n", [])

/-- One `<candidateKey>` (lines 2779-2793): one `CREATE UNIQUE INDEX`,
numbered by the global counter carried in `acc.2`. -/
def candidateKeyStep (table_name : String) (acc : List Stmt × Nat)
    (ck : String × List String) : List Stmt × Nat :=
  let hdr := "CREATE UNIQUE INDEX unique_idx" ++ toString acc.2 ++ "_" ++ ck.1
      ++ " ON " ++ table_name ++ " ("
  let body := ck.2.foldl (fun a n => a ++ "\n  " ++ n ++ ",") hdr
  let sql := replaceLastChar body ')' ++ ";\n"
  (acc.1 ++ [Stmt.createUniqueIndex table_name sql], acc.2 + 1)

/-- The candidate-key loop (lines 2775-2795). -/
def candidateKeyStmts (table_name : String) (iuk : Nat)
    (cks : List (String × List String)) : List Stmt × Nat :=
  cks.foldl (candidateKeyStep table_name) ([], iuk)

/-- The per-table verbose comments (lines 2622-2623 and 2631). -/
def tableComments (verbose : Nat) (tab : TableMeta) : List Stmt :=
  if verbose > 1 then
    [Stmt.comment ("--  table=" ++ String.mk [sqc] ++ tab.name ++ String.mk [sqc]),
     Stmt.comment ("--  no. of columns=" ++ toString tab.columns.length)]
  else []

/-- The complete `CREATE TABLE` statement text of one table (lines
2625-2724): the column list from `table_columns_fold` plus the optional
`PRIMARY KEY` block. -/
def tableCreateSql (schema_name : String) (dtt : IDA_SIARDdatatype_table)
    (tab : TableMeta) : String :=
  let pkpart :=
    if tab.primaryKey.length > 0 then
      let body := tab.primaryKey.foldl (fun a n => a ++ "\n   " ++ n ++ ",")
          ",\n   PRIMARY KEY ("
      replaceLastChar body ')' ++ "\n"
    else ""
  (table_columns_fold schema_name dtt tab).2.1 ++ pkpart ++ ");\n"

/-- The `INSERT INTO` statements of one table (lines 2729-2767): none when
the content file is missing or fails to load, otherwise one statement per
row, formatted against the Data Type Table state after this table's columns
were processed. -/
def tableInsertStrs (env : LobEnv) (fuel : Nat) (schema_name : String)
    (dtt : IDA_SIARDdatatype_table) (tab : TableMeta) : List String :=
  match tab.content with
  | none => []
  | some root =>
    content_tree_to_sql env (table_columns_fold schema_name dtt tab).1 fuel
      tab.name (table_columns_fold schema_name dtt tab).2.2 root

/-- The per-table body of the main loop (lines 2604-2796). -/
def processTable (env : LobEnv) (fuel : Nat) (verbose : Nat)
    (schema_name : String) (st : EmitSt) (tab : TableMeta) : EmitSt :=
  if st.seen_tables.contains tab.name then
    -- replicated table name: record the collision and skip
    { st with rep_tables := setInsertPair st.rep_tables (schema_name, tab.name) }
  else
    { dtt := (table_columns_fold schema_name st.dtt tab).1
      seen_tables := st.seen_tables ++ [tab.name]
      rep_tables := st.rep_tables
      table_first_schema :=
        if ((List.lookup tab.name st.table_first_schema).getD "").isEmpty then
          assocSet tab.name schema_name st.table_first_schema
        else st.table_first_schema
      iuk := (candidateKeyStmts tab.name st.iuk tab.candidateKeys).2
      out := st.out ++ (tableComments verbose tab
        ++ [Stmt.createTable tab.name (tableCreateSql schema_name st.dtt tab)]
        ++ (tableInsertStrs env fuel schema_name st.dtt tab).map
            (Stmt.insertInto tab.name)
        ++ (candidateKeyStmts tab.name st.iuk tab.candidateKeys).1) }

/-- The per-schema body of the main loop (lines 2583-2796).  `filt` stands
for `regex_search(schema_name, schema_re)` with the case-insensitive filter
regex; the caller passes `fun _ => true` for the empty filter string, for
which the code skips the regex entirely. -/
def processSchema (env : LobEnv) (fuel : Nat) (verbose : Nat)
    (filt : String → Bool) (st : EmitSt) (sch : SchemaMeta) : EmitSt :=
  if !filt sch.name then st
  else
    let comments :=
      if verbose > 0 then
        [Stmt.comment ("-- schema=" ++ String.mk [sqc] ++ sch.name ++ String.mk [sqc]),
         Stmt.comment ("-- no. of tables=" ++ toString sch.tables.length)]
      else []
    sch.tables.foldl (processTable env fuel verbose sch.name)
      { st with out := st.out ++ comments }

/-- `IDA_SIARDmetadata::tree_to_sql` (stream version, lines 2546-2831):
header comments, the pre-pass registering every schema's complex types in
the Data Type Table, then the filtered main loop.  `dtt0` is the state of
the process-global `DataType_Table` when the call starts. -/
def tree_to_sql (md : Metadata) (filt : String → Bool) (env : LobEnv)
    (fuel : Nat) (verbose : Nat) (dtt0 : IDA_SIARDdatatype_table) : EmitSt :=
  let out0 := [Stmt.comment ("-- siard version=" ++ md.version),
               Stmt.comment ("-- no. of schemas=" ++ toString md.schemas.length)]
  let dttP := md.schemas.foldl (fun d sch => add_complex_data_type d sch.name sch.types) dtt0
  md.schemas.foldl (processSchema env fuel verbose filt)
    { dtt := dttP, out := out0 }

/-! ## `IDA_siard2sql` (lines 2893-2951) and `main`
(src/unnamed/part_003 lines 32-63) -/

/-- The process state relevant to the claims: the namespace-level global
`DataType_Table` (line 1556), value-initialised at process start and never
reset by `IDA_siard2sql`. -/
structure ProcSt where
  dtt : IDA_SIARDdatatype_table := IDA_SIARDdatatype_table.empty

/-- The return value of `IDA_siard2sql`: −1 when `get_realpath` fails on the
input, −1 when the schema filter is not a valid regex, −1 when
`header/metadata.xml` fails to load, otherwise 0.  A write failure on the
output sink (`sinkWriteFails`) is caught inside `tree_to_sql(string …)`
(lines 2843-2851) and never changes the return value. -/
def IDA_siard2sql_ret (siardFound regexValid metadataLoads sinkWriteFails : Bool) :
    Int :=
  let _ := sinkWriteFails
  if !siardFound then -1
  else if !regexValid then -1
  else if !metadataLoads then -1
  else 0

/-- The effect of one successful `IDA_siard2sql` translation on the process
state: `tree_to_sql` runs against the process-global `DataType_Table`,
whose resulting value persists for the next call (verbose is 2, the default
of the file-writing overload). -/
def IDA_siard2sql_run (ps : ProcSt) (md : Metadata) (filt : String → Bool)
    (env : LobEnv) (fuel : Nat) : ProcSt × List Stmt :=
  let st := tree_to_sql md filt env fuel 2 ps.dtt
  ({ dtt := st.dtt }, st.out)

def EXIT_SUCCESS : Int := 0
def EXIT_FAILURE : Int := 1

/-- `main` (src/unnamed/part_003): usage error without arguments, otherwise
`IDA_siard2sql` is called and its return value is discarded; the final
statement is `return EXIT_SUCCESS`. -/
def main_ret (argc : Nat)
    (siardFound regexValid metadataLoads sinkWriteFails : Bool) : Int :=
  if argc < 2 then EXIT_FAILURE
  else
    let _r := IDA_siard2sql_ret siardFound regexValid metadataLoads sinkWriteFails
    EXIT_SUCCESS

/-! ## Concrete instances used by counterexamples and witnesses -/

/-- A file reader that finds nothing. -/
def noFiles : String → Option (List Nat) := fun _ => none

def envW : LobEnv := { siardURI := "", readFile := noFiles }

/-- The filter behaviour for an empty filter string: every schema matches. -/
def allSchemas : String → Bool := fun _ => true

/-- A metadata tree declaring one distinct type `S.D` and no tables. -/
def mdDistinct : Metadata :=
  { schemas := [{ name := "S",
                  types := [{ category := "distinct", name := "D", base := "INT" }] }] }

/-- A metadata tree with two schemas that both define a table named `T`. -/
def mdDup : Metadata :=
  { schemas :=
      [{ name := "S1", tables := [{ name := "T" }] },
       { name := "S2", tables := [{ name := "T" }] }] }

/-- An element with no children (so any `a<i>`/`u<k>` lookup misses). -/
def elW : XmlEl := XmlEl.el "c1" none none []

/-- A metadata tree with no schemas at all. -/
def mdEmpty : Metadata := {}

/-- The keys of the Data Type Table. -/
def dttKeys (d : IDA_SIARDdatatype_table) : List (String × String) :=
  d.datatype_dict.map Prod.fst

/-- Growth order on Data Type Table states: every key survives and the
anonymous-array counter does not decrease.  Every operation the translator
performs on the global `DataType_Table` respects this order, which is what
makes entries of one run visible to the next. -/
def DLE (d1 d2 : IDA_SIARDdatatype_table) : Prop :=
  (∀ k ∈ dttKeys d1, k ∈ dttKeys d2)
    ∧ d1.datatype_array_count ≤ d2.datatype_array_count

/-- The process state after one translation of `mdDistinct` starting from a
fresh process. -/
def psAfterDistinct : ProcSt :=
  (IDA_siard2sql_run { dtt := IDA_SIARDdatatype_table.empty } mdDistinct
    allSchemas envW 1).1

/-! ## Statement classification (used to state the ordering claims) -/

/-- The table a statement belongs to (`none` for comments). -/
def stmtTable : Stmt → Option String
  | Stmt.comment _ => none
  | Stmt.createTable t _ => some t
  | Stmt.insertInto t _ => some t
  | Stmt.createUniqueIndex t _ => some t

def isCreateFor (T : String) : Stmt → Bool
  | Stmt.createTable t _ => t == T
  | _ => false

def isInsertFor (T : String) : Stmt → Bool
  | Stmt.insertInto t _ => t == T
  | _ => false

def isIndexFor (T : String) : Stmt → Bool
  | Stmt.createUniqueIndex t _ => t == T
  | _ => false

/-- The subsequence of the output belonging to table `T`, in stream order. -/
def tableStmts (T : String) (l : List Stmt) : List Stmt :=
  l.filter (fun s => stmtTable s == some T)

/-- The per-table segment shape: one `CREATE TABLE`, then only `INSERT`s,
then only `CREATE UNIQUE INDEX`es, all for the same table. -/
def SegShape (T : String) (l : List Stmt) : Prop :=
  ∃ sql ins idx, l = Stmt.createTable T sql :: (ins ++ idx)
    ∧ ins.all (isInsertFor T) = true ∧ idx.all (isIndexFor T) = true

/-- The walker invariant: a table name already seen owns a complete,
well-shaped segment of the stream; a name not yet seen owns nothing. -/
def EmitInv (st : EmitSt) : Prop :=
  ∀ T, (st.seen_tables.contains T = true → SegShape T (tableStmts T st.out))
    ∧ (st.seen_tables.contains T = false → tableStmts T st.out = [])

/-! # Theorems -/

/-! ## Claim C5: the lobFolder combinator -/

/-- C5.  For all strings `parent` and `declared`, `combine_lobfolders`
returns `declared` when `declared` is absolute or `parent` is empty,
`parent` when `declared` is empty (and `parent` non-empty, `declared` not
absolute), and `parent ++ "/" ++ declared` otherwise — that is, it agrees
with the spec's three-rule combinator in the spec's rule order. -/
theorem combine_lobfolders_correct (parent declared : String) :
    combine_lobfolders parent declared = combine_spec parent declared := by
  unfold combine_lobfolders combine_spec
  by_cases ha : is_absolute declared <;> by_cases hp : parent.isEmpty <;>
    simp [ha, hp]

/-! ## Claim C3: the type mapper and its cache -/

theorem typecache_lookup_sound :
    ∀ (cache : TypeCache) (s : String) (r : SQLITE_COLTYPES),
      (∀ p ∈ cache, p.2 = computeAffinity p.1) →
      List.lookup s cache = some r → r = computeAffinity s := by
  intro cache
  induction cache with
  | nil => intro s r _ h; simp [List.lookup] at h
  | cons p rest ih =>
    intro s r hwf h
    obtain ⟨k, v⟩ := p
    by_cases he : s = k
    · subst he
      simp [List.lookup] at h
      subst h
      exact hwf (s, v) (by simp)
    · rw [List.lookup] at h
      have hbe : (s == k) = false := by simpa using he
      rw [hbe] at h
      exact ih s r (fun q hq => hwf q (by simp [hq])) h

theorem runTypeQueries_correct :
    ∀ (qs : List String) (cache : TypeCache),
      (∀ p ∈ cache, p.2 = computeAffinity p.1) →
      (runTypeQueries qs cache).1 = qs.map computeAffinity := by
  intro qs
  induction qs with
  | nil => intro cache _; rfl
  | cons q rest ih =>
    intro cache hwf
    unfold runTypeQueries siard_type_to_sqlite3
    cases hl : List.lookup q cache with
    | some r =>
      have hr : r = computeAffinity q := typecache_lookup_sound cache q r hwf hl
      simp only [hl]
      simp [ih cache hwf, hr]
    | none =>
      simp only [hl]
      have hwf' : ∀ p ∈ ((q, computeAffinity q) :: cache),
          p.2 = computeAffinity p.1 := by
        intro p hp
        rcases List.mem_cons.mp hp with h | h
        · subst h; rfl
        · exact hwf p h
      simp [ih _ hwf']

/-- C3.  `siard_type_to_sqlite3` realises the documented first-match
cascade: INTEGER on `(BIG|SMALL)INT|INTEGER|\bINT\b|BOOL`, else NUMERIC on
`NUMERIC|DECIMAL|DEC\s*\(`, else REAL on `DOUBLE|FLOAT|REAL`, else BLOB on
`BINARY|BLOB|VARBINARY`, else TEXT; matching is case-sensitive (witnessed by
`INTEGER` vs `integer`), and any sequence of queries served through the
cache returns exactly the uncached computation for every query. -/
theorem siard_type_to_sqlite3_correct :
    (∀ qs : List String, (runTypeQueries qs []).1 = qs.map computeAffinity)
    ∧ (∀ s : String, computeAffinity s =
        (if matches_re_int s.data then COLTYPE_INTEGER
         else if matches_re_numeric s.data then COLTYPE_NUMERIC
         else if matches_re_real s.data then COLTYPE_REAL
         else if matches_re_blob s.data then COLTYPE_BLOB
         else COLTYPE_TEXT))
    ∧ computeAffinity "INTEGER" = COLTYPE_INTEGER
    ∧ computeAffinity "integer" = COLTYPE_TEXT := by
  refine ⟨fun qs => runTypeQueries_correct qs [] (by simp), fun s => rfl, ?_, ?_⟩
  · decide
  · decide

/-! ## Claims C4 and C10: the SIARD decoder -/

theorem hexValB_lt {b : Nat} (h : isHexDigitB b = true) : hexValB b < 16 := by
  simp only [isHexDigitB, Bool.or_eq_true, Bool.and_eq_true, decide_eq_true_eq] at h
  unfold hexValB
  by_cases h1 : (48 ≤ b && b ≤ 57) = true
  · rw [if_pos h1]
    simp only [Bool.and_eq_true, decide_eq_true_eq] at h1
    omega
  · rw [if_neg h1]
    simp only [Bool.and_eq_true, decide_eq_true_eq] at h1
    by_cases h2 : 97 ≤ b
    · rw [if_pos h2]; omega
    · rw [if_neg h2]; omega

theorem strtol16_00 {d1 d2 : Nat} (h1 : isHexDigitB d1 = true)
    (h2 : isHexDigitB d2 = true) :
    strtol16 [48, 48, d1, d2] = 16 * hexValB d1 + hexValB d2 := by
  have h48 : isHexDigitB 48 = true := by decide
  have hv48 : hexValB 48 = 0 := by decide
  simp [strtol16, hexPrefixValAux, h48, hv48, h1, h2]

theorem specEscape_special {l : List Nat} (h : specEscape l = true) :
    siard_special l = true := by
  unfold specEscape at h
  split at h
  · rfl
  · simp at h

theorem siard_special_shape {s : List Nat} (h : siard_special s = true) :
    ∃ t, s = 92 :: 117 :: 48 :: 48 :: t := by
  unfold siard_special at h
  split at h
  · rename_i t
    exact ⟨t, rfl⟩
  · simp at h

theorem goodEscapes_tail {b : Nat} {bs : List Nat}
    (h : goodEscapes (b :: bs) = true) : goodEscapes bs = true := by
  simp only [goodEscapes, List.all_eq_true, List.mem_range] at h ⊢
  intro i hi
  have := h (i + 1) (by simpa using Nat.succ_lt_succ hi)
  simpa [List.drop_succ_cons, List.getD_cons_succ, Nat.succ_lt_succ_iff] using this

theorem goodEscapes_head {s : List Nat} (hg : goodEscapes s = true)
    (hsp : siard_special s = true) :
    ∃ d1 d2 rest, s = 92 :: 117 :: 48 :: 48 :: d1 :: d2 :: rest
      ∧ isHexDigitB d1 = true ∧ isHexDigitB d2 = true := by
  obtain ⟨tail, rfl⟩ := siard_special_shape hsp
  simp only [goodEscapes, List.all_eq_true, List.mem_range] at hg
  have h0 := hg 0 (by simp)
  rw [List.drop_zero] at h0
  rw [show siard_special (92 :: 117 :: 48 :: 48 :: tail) = true from rfl] at h0
  simp only [Bool.not_true, Bool.false_or, Bool.and_eq_true,
    decide_eq_true_eq] at h0
  obtain ⟨⟨hlen, h4⟩, h5⟩ := h0
  cases tail with
  | nil => simp at hlen
  | cons d1 t2 =>
    cases t2 with
    | nil => simp at hlen
    | cons d2 rest =>
      exact ⟨d1, d2, rest, rfl, by simpa using h4, by simpa using h5⟩

theorem siard_decode_go_eq_spec_aux :
    ∀ (n : Nat) (s : List Nat), s.length ≤ n → goodEscapes s = true →
      siard_decode_go s = decode_spec s := by
  intro n
  induction n with
  | zero =>
    intro s hl _
    have hs : s = [] := List.eq_nil_of_length_eq_zero (Nat.le_zero.mp hl)
    subst hs
    simp only [siard_decode_go, decode_spec]
  | succ n ih =>
    intro s hl hg
    match s with
    | [] => simp only [siard_decode_go, decode_spec]
    | b :: bs =>
      by_cases hsp : siard_special (b :: bs) = true
      · obtain ⟨d1, d2, rest, hs, h1, h2⟩ := goodEscapes_head hg hsp
        have hb : b = 92 := by injection hs
        have hbs : bs = 117 :: 48 :: 48 :: d1 :: d2 :: rest := by
          injection hs with _ h
        subst hb; subst hbs
        have hrest : goodEscapes rest = true := by
          have g1 := goodEscapes_tail hg
          have g2 := goodEscapes_tail g1
          have g3 := goodEscapes_tail g2
          have g4 := goodEscapes_tail g3
          have g5 := goodEscapes_tail g4
          exact goodEscapes_tail g5
        have hlen : rest.length ≤ n := by
          simp only [List.length_cons] at hl
          omega
        have hspec : specEscape
            (92 :: 117 :: 48 :: 48 :: d1 :: d2 :: rest) = true := by
          simp [specEscape, h1, h2]
        rw [siard_decode_go, decode_spec, if_pos hsp, if_pos hspec]
        have e1 : ((117 : Nat) :: 48 :: 48 :: d1 :: d2 :: rest).getD 1 0 = 48 := rfl
        have e2 : ((117 : Nat) :: 48 :: 48 :: d1 :: d2 :: rest).getD 2 0 = 48 := rfl
        have e3 : ((117 : Nat) :: 48 :: 48 :: d1 :: d2 :: rest).getD 3 0 = d1 := rfl
        have e4 : ((117 : Nat) :: 48 :: 48 :: d1 :: d2 :: rest).getD 4 0 = d2 := rfl
        have e5 : ((117 : Nat) :: 48 :: 48 :: d1 :: d2 :: rest).drop 5 = rest := rfl
        rw [e1, e2, e3, e4, e5, ih rest hlen hrest]
        have q1 := hexValB_lt h1
        have q2 := hexValB_lt h2
        rw [strtol16_00 h1 h2, Nat.mod_eq_of_lt (by omega)]
      · have hspec : specEscape (b :: bs) = false := by
          by_contra hx
          exact hsp (specEscape_special (by simpa using hx))
        rw [siard_decode_go, decode_spec, if_neg (by simp [hsp]),
          if_neg (by simp [hspec])]
        have hgbs : goodEscapes bs = true := goodEscapes_tail hg
        have hlbs : bs.length ≤ n := by
          simp only [List.length_cons] at hl
          omega
        rw [ih bs hlbs hgbs]

/-- C4.  On every input in which each occurrence of the 4-character sequence
`\u00` is followed by two hexadecimal digits, `siard_decode` produces
exactly the byte sequence obtained by replacing each 6-character escape
`\u00HH` (upper- or lowercase hex) by the byte `0xHH` and passing every
other character through unchanged; the second conjunct shows the result can
contain the byte `0x00` (decoding `\u0000`). -/
theorem siard_decode_correct (s : List Nat) (h : goodEscapes s = true) :
    siard_decode_go s = decode_spec s
      ∧ 0 ∈ siard_decode_go [92, 117, 48, 48, 48, 48] := by
  refine ⟨siard_decode_go_eq_spec_aux s.length s le_rfl h, ?_⟩
  simp [siard_decode_go, siard_special, strtol16, hexPrefixValAux, isHexDigitB, hexValB]

/-- Witness for C4 at the concrete input `AÿB`. -/
theorem siard_decode_correct_witness :
    goodEscapes [65, 92, 117, 48, 48, 102, 102, 66] = true
      ∧ siard_decode_go [65, 92, 117, 48, 48, 102, 102, 66]
          = decode_spec [65, 92, 117, 48, 48, 102, 102, 66] :=
  ⟨by decide, (siard_decode_correct [65, 92, 117, 48, 48, 102, 102, 66]
    (by decide)).1⟩

theorem siard_decode_go_length_aux :
    ∀ (n : Nat) (s : List Nat), s.length ≤ n →
      (siard_decode_go s).length ≤ s.length := by
  intro n
  induction n with
  | zero =>
    intro s hl
    have hs : s = [] := List.eq_nil_of_length_eq_zero (Nat.le_zero.mp hl)
    subst hs
    simp [siard_decode_go]
  | succ n ih =>
    intro s hl
    match s with
    | [] => simp [siard_decode_go]
    | b :: bs =>
      by_cases hsp : siard_special (b :: bs) = true
      · rw [siard_decode_go, if_pos hsp]
        have h5 : (bs.drop 5).length ≤ n := by
          simp only [List.length_drop]
          simp only [List.length_cons] at hl
          omega
        have := ih (bs.drop 5) h5
        simp only [List.length_cons, List.length_drop] at this ⊢
        omega
      · rw [siard_decode_go, if_neg hsp]
        have hlbs : bs.length ≤ n := by
          simp only [List.length_cons] at hl
          omega
        have := ih bs hlbs
        simp only [List.length_cons]
        omega

/-- C10.  The number of bytes `siard_decode` produces never exceeds the
number of characters of the input — a 6-character escape yields one byte and
any other character one byte — so the decoded content fits the
`strlen(s)`-byte buffer the function `malloc`s; for the empty string the
function returns NULL (`none`) with size 0. -/
theorem siard_decode_size_correct :
    (∀ s : List Nat, (siard_decode_go s).length ≤ s.length)
      ∧ siard_decode [] = none :=
  ⟨fun s => siard_decode_go_length_aux s.length s le_rfl, rfl⟩

/-! ## Claim C1: exit codes -/

/-- C1 counterexample.  With at least one argument (`argc = 2`) and the
SIARD input not found — a failure case in which `IDA_siard2sql` itself
returns −1 — the process still exits with code 0 (`EXIT_SUCCESS`), because
`main` discards the return value of `IDA_siard2sql`; the claim's required
non-zero exit code is therefore false on the code. -/
theorem exit_code_counterexample :
    IDA_siard2sql_ret false true true false = -1
      ∧ main_ret 2 false true true false = 0 :=
  ⟨rfl, rfl⟩

/-- C1 (amended).  The process exit code is `EXIT_FAILURE` when invoked
without arguments and `EXIT_SUCCESS` whenever at least one argument is
given, regardless of any failure; the library function `IDA_siard2sql`
returns 0 exactly when the SIARD input is found, the schema-filter regex is
valid and the metadata loads, and −1 otherwise — a write failure on the
output sink is swallowed (caught inside `tree_to_sql`) and leaves the
return value 0. -/
theorem exit_code_amended :
    (∀ (argc : Nat) (sf rv ml wf : Bool),
      main_ret argc sf rv ml wf = if argc < 2 then EXIT_FAILURE else EXIT_SUCCESS)
    ∧ (∀ sf rv ml wf : Bool,
      IDA_siard2sql_ret sf rv ml wf = if sf && rv && ml then 0 else -1) := by
  constructor
  · intro argc sf rv ml wf
    unfold main_ret
    split <;> rfl
  · intro sf rv ml wf
    cases sf <;> cases rv <;> cases ml <;> rfl

/-! ## Claim C9: udt `<type>` without an `<attributes>` element -/

/-- C9.  A schema `<type>` of category `udt` with no `<attributes>` child is
never registered: processing it leaves the Data Type Table unchanged;
consequently a lookup of any unregistered `(schema, name)` yields the empty
node, and a cell whose type resolves to the empty node is formatted by the
simple formatter applied to the type name with textify forced (not as a
`json_object`). -/
theorem udt_without_attributes_correct :
    (∀ (dtt : IDA_SIARDdatatype_table) (S : String) (td : TypeDef),
      td.category = "udt" → td.attributes = none → add_one_type dtt S td = dtt)
    ∧ (∀ (dtt : IDA_SIARDdatatype_table) (ts tn : String),
      List.lookup (ts, tn) dtt.datatype_dict = none →
        (dtt.get_typenode ts tn).isEmptyNode = true)
    ∧ (∀ (env : LobEnv) (lobinfo : List (String × String))
        (dtt : IDA_SIARDdatatype_table) (fuel : Nat) (s : String) (e : XmlEl)
        (tS tN : String) (depth : Nat) (tp : String),
      (dtt.get_typenode tS tN).isEmptyNode = true →
        append_complex_data_type_content env lobinfo dtt (fuel + 1) s (some e)
            tS tN depth tp
          = append_simple_st env lobinfo s (some e) tN true tp) := by
  refine ⟨?_, ?_, ?_⟩
  · intro dtt S td h1 h2
    unfold add_one_type
    rw [h1, h2]
    by_cases hn : td.name.isEmpty <;> simp [hn]
  · intro dtt ts tn h
    simp only [IDA_SIARDdatatype_table.get_typenode, h, Option.getD_none,
      IDA_SIARDtypenode.isEmptyNode]
    rfl
  · intro env lobinfo dtt fuel s e tS tN depth tp h
    rw [append_complex_data_type_content]
    simp [h]

/-- Witness for C9: in the empty table the type `("S","Q")` is unregistered,
its lookup is the empty node, and the complex formatter delegates to the
simple formatter with textify forced. -/
theorem udt_without_attributes_witness :
    ({ category := "udt", name := "Q", attributes := none : TypeDef }.category
        = "udt")
    ∧ add_one_type IDA_SIARDdatatype_table.empty "S"
        { category := "udt", name := "Q", attributes := none }
        = IDA_SIARDdatatype_table.empty
    ∧ (IDA_SIARDdatatype_table.empty.get_typenode "S" "Q").isEmptyNode = true
    ∧ append_complex_data_type_content envW [] IDA_SIARDdatatype_table.empty 3
        "" (some elW) "S" "Q" 0 ""
      = append_simple_st envW [] "" (some elW) "Q" true "" :=
  ⟨rfl,
   (udt_without_attributes_correct.1 IDA_SIARDdatatype_table.empty "S"
      { category := "udt", name := "Q", attributes := none } rfl rfl),
   (udt_without_attributes_correct.2.1 IDA_SIARDdatatype_table.empty "S" "Q"
      rfl),
   (udt_without_attributes_correct.2.2 envW [] IDA_SIARDdatatype_table.empty 2
      "" elW "S" "Q" 0 ""
      (udt_without_attributes_correct.2.1 IDA_SIARDdatatype_table.empty "S" "Q" rfl))⟩

/-! ## Claim C8: missing `<cN>`, `<aN>`, `<uN>` elements -/

/-- C8.  A missing element always yields the empty content and processing
continues: the simple formatter on a NULL element appends two single quotes;
the complex formatter on a NULL element appends the same; the `json_array`
loop, when `<a<i>>` is absent, appends the indent and the empty content
(plus the separator when more items follow) and moves on to item i+1; the
`json_object` loop, when `<u<k>>` is absent, appends the attribute label and
the empty content (plus the separator when more attributes follow) and moves
on to the next attribute.  No branch fails. -/
theorem missing_element_empty_content :
    (∀ (env : LobEnv) (lobinfo : List (String × String)) (s : String)
        (ty : SQLITE_COLTYPES) (tb : Bool) (tp : String),
      append_simple_data_type_content env lobinfo s none ty tb tp
        = s ++ emptyContent)
    ∧ (∀ (env : LobEnv) (lobinfo : List (String × String))
        (dtt : IDA_SIARDdatatype_table) (fuel : Nat) (s : String)
        (tS tN : String) (depth : Nat) (tp : String),
      append_complex_data_type_content env lobinfo dtt (fuel + 1) s none tS tN
          depth tp
        = s ++ emptyContent)
    ∧ (∀ (env : LobEnv) (lobinfo : List (String × String))
        (dtt : IDA_SIARDdatatype_table) (fuel : Nat) (s : String) (e : XmlEl)
        (arrSch arrTy : String) (depth : Nat) (tp indent : String)
        (card i : Nat),
      find_element_BF e ("a" ++ toString i) = none → i ≤ card →
        append_array_items env lobinfo dtt fuel s e arrSch arrTy depth tp
            indent card i
          = append_array_items env lobinfo dtt fuel
              (s ++ indent ++ emptyContent ++ (if i < card then ",\n" else ""))
              e arrSch arrTy depth tp indent card (i + 1))
    ∧ (∀ (env : LobEnv) (lobinfo : List (String × String))
        (dtt : IDA_SIARDdatatype_table) (fuel : Nat) (s : String) (e : XmlEl)
        (att : IDA_SIARD_type_attribute) (rest : List IDA_SIARD_type_attribute)
        (att_no total : Nat) (depth : Nat) (tp indent : String),
      find_element_BF e ("u" ++ toString att_no) = none →
        append_udt_atts env lobinfo dtt fuel s e (att :: rest) att_no total
            depth tp indent
          = append_udt_atts env lobinfo dtt fuel
              (s ++ indent ++ String.mk [sqc] ++ att.name ++ String.mk [sqc]
                ++ ", " ++ emptyContent
                ++ (if att_no + 1 ≤ total then ",\n" else ""))
              e rest (att_no + 1) total depth tp indent) := by
  refine ⟨?_, ?_, ?_, ?_⟩
  · intro env lobinfo s ty tb tp
    rfl
  · intro env lobinfo dtt fuel s tS tN depth tp
    rw [append_complex_data_type_content]
  · intro env lobinfo dtt fuel s e arrSch arrTy depth tp indent card i hfind hle
    rw [append_array_items, if_neg (by omega)]
    simp only [hfind]
    congr 1
    by_cases hlt : i < card <;> simp [hlt]
  · intro env lobinfo dtt fuel s e att rest att_no total depth tp indent hfind
    rw [append_udt_atts]
    simp only [hfind]
    congr 1
    by_cases hle : att_no + 1 ≤ total <;> simp [hle]

/-- Witness for C8: with an element that has no children, `<a1>` is absent
and the array loop at item 1 of 2 appends the empty content and the
separator; `<u1>` is absent and the udt loop appends the label and the empty
content. -/
theorem missing_element_empty_content_witness :
    (find_element_BF elW "a1" = none)
    ∧ append_array_items envW [] IDA_SIARDdatatype_table.empty 3 "" elW ""
        "INTEGER" 0 "" " " 2 1
      = append_array_items envW [] IDA_SIARDdatatype_table.empty 3
          ("" ++ " " ++ emptyContent ++ ",\n") elW "" "INTEGER" 0 "" " " 2 2
    ∧ append_udt_atts envW [] IDA_SIARDdatatype_table.empty 3 "" elW
        [{ name := "x", type := "INTEGER" }] 1 1 0 "" " "
      = append_udt_atts envW [] IDA_SIARDdatatype_table.empty 3
          ("" ++ " " ++ String.mk [sqc] ++ "x" ++ String.mk [sqc] ++ ", "
            ++ emptyContent ++ "") elW [] 2 1 0 "" " " := by
  have hfind : find_element_BF elW "a1" = none := by
    simp [find_element_BF, elW, XmlEl.children, bfsFindAux]
  have hfindu : find_element_BF elW "u1" = none := by
    simp [find_element_BF, elW, XmlEl.children, bfsFindAux]
  refine ⟨hfind, ?_, ?_⟩
  · have := missing_element_empty_content.2.2.1 envW []
      IDA_SIARDdatatype_table.empty 3 "" elW "" "INTEGER" 0 "" " " 2 1
      (by simpa using hfind) (by omega)
    simpa using this
  · have := missing_element_empty_content.2.2.2 envW []
      IDA_SIARDdatatype_table.empty 3 "" elW { name := "x", type := "INTEGER" }
      [] 1 1 0 "" " " (by simpa using hfindu)
    simpa using this

/-! ## Claim C2: lifetime of the Data Type Table -/

theorem DLE_refl (d : IDA_SIARDdatatype_table) : DLE d d :=
  ⟨fun _ h => h, le_rfl⟩

theorem DLE_trans {a b c : IDA_SIARDdatatype_table} (h1 : DLE a b)
    (h2 : DLE b c) : DLE a c :=
  ⟨fun k hk => h2.1 k (h1.1 k hk), le_trans h1.2 h2.2⟩

theorem assocSet_keys_mono {α β : Type} [DecidableEq α] (k0 : α) (v : β) :
    ∀ (l : List (α × β)) (k : α), k ∈ l.map Prod.fst →
      k ∈ (assocSet k0 v l).map Prod.fst := by
  intro l
  induction l with
  | nil => intro k h; simp at h
  | cons p rest ih =>
    intro k h
    obtain ⟨k1, v1⟩ := p
    simp only [List.map_cons, List.mem_cons] at h
    by_cases he : k1 = k0
    · have hs : assocSet k0 v ((k1, v1) :: rest) = (k0, v) :: rest := by
        simp [assocSet, he]
      rw [hs, List.map_cons, List.mem_cons]
      rcases h with h | h
      · exact Or.inl (he ▸ h)
      · exact Or.inr h
    · have hs : assocSet k0 v ((k1, v1) :: rest)
          = (k1, v1) :: assocSet k0 v rest := by
        simp [assocSet, he]
      rw [hs, List.map_cons, List.mem_cons]
      rcases h with h | h
      · exact Or.inl h
      · exact Or.inr (ih k h)

theorem DLE_add_type (d : IDA_SIARDdatatype_table) (ts tn : String)
    (node : IDA_SIARDtypenode) : DLE d (d.add_type ts tn node) :=
  ⟨fun k hk => assocSet_keys_mono (ts, tn) node d.datatype_dict k hk, le_rfl⟩

theorem DLE_add_array (d : IDA_SIARDdatatype_table)
    (sn sub ty tS tN : String) (card : Nat) :
    DLE d (d.add_array_data_type sn sub ty tS tN card).2 := by
  unfold IDA_SIARDdatatype_table.add_array_data_type
  refine DLE_trans (b := { d with datatype_array_count := d.datatype_array_count + 1 }) ?_ ?_
  · exact ⟨fun k hk => hk, by simp⟩
  · exact DLE_add_type _ _ _ _

theorem foldl_DLE {σ α : Type} (proj : σ → IDA_SIARDdatatype_table)
    (f : σ → α → σ) (hstep : ∀ st a, DLE (proj st) (proj (f st a))) :
    ∀ (l : List α) (st : σ), DLE (proj st) (proj (List.foldl f st l)) := by
  intro l
  induction l with
  | nil => intro st; exact DLE_refl _
  | cons a rest ih =>
    intro st
    exact DLE_trans (hstep st a) (ih (f st a))

theorem DLE_udt_att_step (S : String)
    (acc : IDA_SIARDtypenode × IDA_SIARDdatatype_table)
    (att : IDA_SIARD_type_attribute) :
    DLE acc.2 (udt_att_step S acc att).2 := by
  unfold udt_att_step
  dsimp only
  split_ifs with c1 c2 c3
  · exact DLE_refl _
  · exact DLE_add_array _ _ _ _ _ _ _
  · exact DLE_refl _
  · exact DLE_refl _

theorem DLE_add_one_type (dtt : IDA_SIARDdatatype_table) (S : String)
    (td : TypeDef) : DLE dtt (add_one_type dtt S td) := by
  unfold add_one_type
  split_ifs with h1 h2 h3
  · exact DLE_add_type _ _ _ _
  · cases hatt : td.attributes with
    | none => exact DLE_refl _
    | some atts =>
      dsimp only
      refine DLE_trans ?_ (DLE_add_type _ _ _ _)
      exact foldl_DLE (fun acc => acc.2) (udt_att_step S)
        (fun st a => DLE_udt_att_step S st a) atts
        ({ schema := S, name := td.name, category := "udt" }, dtt)
  · exact DLE_refl _
  · exact DLE_refl _

theorem DLE_add_complex_data_type (dtt : IDA_SIARDdatatype_table)
    (S : String) (tds : List TypeDef) :
    DLE dtt (add_complex_data_type dtt S tds) :=
  foldl_DLE (fun d => d) (fun d td => add_one_type d S td)
    (fun d td => DLE_add_one_type d S td) tds dtt

theorem DLE_processColumn (schema_name : String)
    (acc : IDA_SIARDdatatype_table × String × List ColInfo)
    (p : Nat × IDA_SIARD_type_attribute) (ncols : Nat)
    (collobs : List (List (String × String))) :
    DLE acc.1 (processColumn schema_name acc p ncols collobs).1 := by
  unfold processColumn
  dsimp only
  split_ifs <;>
    first
      | exact DLE_refl _
      | exact DLE_add_array _ _ _ _ _ _ _

theorem DLE_table_columns_fold (schema_name : String)
    (dtt : IDA_SIARDdatatype_table) (tab : TableMeta) :
    DLE dtt (table_columns_fold schema_name dtt tab).1 := by
  unfold table_columns_fold
  exact foldl_DLE (fun acc => acc.1)
    (fun acc pr => processColumn schema_name acc pr tab.columns.length tab.collobs)
    (fun acc pr => DLE_processColumn schema_name acc pr tab.columns.length
      tab.collobs)
    tab.columns.enum
    (dtt, "CREATE TABLE " ++ String.mk [sqc] ++ tab.name ++ String.mk [sqc]
      ++ " (\n", [])

theorem DLE_processTable (env : LobEnv) (fuel verbose : Nat)
    (schema_name : String) (st : EmitSt) (tab : TableMeta) :
    DLE st.dtt (processTable env fuel verbose schema_name st tab).dtt := by
  unfold processTable
  split_ifs <;>
    first
      | exact DLE_refl _
      | exact DLE_table_columns_fold schema_name st.dtt tab

theorem DLE_processSchema (env : LobEnv) (fuel verbose : Nat)
    (filt : String → Bool) (st : EmitSt) (sch : SchemaMeta) :
    DLE st.dtt (processSchema env fuel verbose filt st sch).dtt := by
  unfold processSchema
  split_ifs with hf hv
  · exact DLE_refl _
  · dsimp only
    exact foldl_DLE EmitSt.dtt (processTable env fuel verbose sch.name)
      (fun s t => DLE_processTable env fuel verbose sch.name s t) sch.tables
      { st with out := st.out ++
          [Stmt.comment ("-- schema=" ++ String.mk [sqc] ++ sch.name
            ++ String.mk [sqc]),
           Stmt.comment ("-- no. of tables=" ++ toString sch.tables.length)] }
  · dsimp only
    exact foldl_DLE EmitSt.dtt (processTable env fuel verbose sch.name)
      (fun s t => DLE_processTable env fuel verbose sch.name s t) sch.tables
      { st with out := st.out ++ [] }

set_option maxHeartbeats 2000000 in
theorem DLE_tree_to_sql (md : Metadata) (filt : String → Bool) (env : LobEnv)
    (fuel verbose : Nat) (dtt0 : IDA_SIARDdatatype_table) :
    DLE dtt0 (tree_to_sql md filt env fuel verbose dtt0).dtt := by
  unfold tree_to_sql
  dsimp only
  refine DLE_trans (b := md.schemas.foldl
    (fun d sch => add_complex_data_type d sch.name sch.types) dtt0) ?_ ?_
  · exact foldl_DLE (fun d => d)
      (fun d sch => add_complex_data_type d sch.name sch.types)
      (fun d sch => DLE_add_complex_data_type d sch.name sch.types)
      md.schemas dtt0
  · exact foldl_DLE EmitSt.dtt (processSchema env fuel verbose filt)
      (fun s sch => DLE_processSchema env fuel verbose filt s sch) md.schemas
      { dtt := md.schemas.foldl
          (fun d sch => add_complex_data_type d sch.name sch.types) dtt0
        out := [Stmt.comment ("-- siard version=" ++ md.version),
                Stmt.comment ("-- no. of schemas=" ++ toString md.schemas.length)] }

set_option maxHeartbeats 2000000 in
/-- C2 counterexample.  Starting from a fresh process, a first call to
`IDA_siard2sql` on a SIARD declaring the distinct type `S.D` leaves the
process-global `DataType_Table` non-empty — so the next call does not start
from an empty table — and a second call (on a SIARD with no schemas at all)
still sees the entry `("S","D")` registered by the first call: the table is
process-scoped, not run-scoped. -/
theorem datatype_table_counterexample :
    (psAfterDistinct.dtt ≠ IDA_SIARDdatatype_table.empty)
    ∧ (((IDA_siard2sql_run psAfterDistinct mdEmpty allSchemas envW 1).1).dtt.get_typenode
        "S" "D").name = "D" := by
  constructor
  · intro h
    have h1 : psAfterDistinct.dtt.datatype_count = 1 := rfl
    rw [h] at h1
    exact absurd h1 (by decide)
  · rfl

/-- C2 (amended).  The Data-Type Table is process-scoped: `IDA_siard2sql`
runs `tree_to_sql` against the single global `DataType_Table` without
clearing it, and every operation of a translation only grows the table, so
after any call each previously present key is still present and the
synthetic-array counter has not decreased — entries registered by one
translation (including synthetic array names and their global counter)
remain visible to every later call in the same process. -/
theorem datatype_table_amended (ps : ProcSt) (md : Metadata)
    (filt : String → Bool) (env : LobEnv) (fuel : Nat) :
    DLE ps.dtt ((IDA_siard2sql_run ps md filt env fuel).1.dtt) :=
  DLE_tree_to_sql md filt env fuel 2 ps.dtt

set_option maxHeartbeats 2000000 in
/-- Witness for C2 (amended): applied to the state left by a first
translation, for a concrete key. -/
theorem datatype_table_amended_witness :
    ("S", "D") ∈ dttKeys psAfterDistinct.dtt
    ∧ ("S", "D") ∈ dttKeys
        ((IDA_siard2sql_run psAfterDistinct mdEmpty allSchemas envW 1).1.dtt) :=
  ⟨by decide,
   (datatype_table_amended psAfterDistinct mdEmpty allSchemas envW 1).1
     ("S", "D") (by decide)⟩

/-! ## Claims C6 and C7: statement ordering and duplicate tables -/

theorem foldl_preserves {σ α : Type} (P : σ → Prop) (f : σ → α → σ)
    (h : ∀ st a, P st → P (f st a)) :
    ∀ (l : List α) (st : σ), P st → P (List.foldl f st l) := by
  intro l
  induction l with
  | nil => intro st hp; exact hp
  | cons a rest ih => intro st hp; exact ih (f st a) (h st a hp)

theorem tableStmts_append (T : String) (a b : List Stmt) :
    tableStmts T (a ++ b) = tableStmts T a ++ tableStmts T b := by
  simp [tableStmts]

theorem tableStmts_none (T : String) (l : List Stmt)
    (h : ∀ s ∈ l, stmtTable s = none) : tableStmts T l = [] := by
  unfold tableStmts
  apply List.filter_eq_nil_iff.mpr
  intro s hs
  simp [h s hs]

theorem tableStmts_tagged (T N : String) (l : List Stmt)
    (h : ∀ s ∈ l, stmtTable s = some N) :
    tableStmts T l = if N = T then l else [] := by
  unfold tableStmts
  split_ifs with he
  · apply List.filter_eq_self.mpr
    intro s hs
    simp [h s hs, he]
  · apply List.filter_eq_nil_iff.mpr
    intro s hs
    simp [h s hs]
    intro hx
    exact absurd hx he

theorem insertStmts_tagged (N : String) (strs : List String) :
    ∀ s ∈ strs.map (Stmt.insertInto N), stmtTable s = some N := by
  intro s hs
  obtain ⟨q, _, rfl⟩ := List.mem_map.mp hs
  rfl

theorem insertStmts_all (N : String) (strs : List String) :
    (strs.map (Stmt.insertInto N)).all (isInsertFor N) = true := by
  rw [List.all_eq_true]
  intro s hs
  obtain ⟨q, _, rfl⟩ := List.mem_map.mp hs
  simp [isInsertFor]

theorem candidateKeyStmts_mem (N : String) :
    ∀ (cks : List (String × List String)) (acc : List Stmt × Nat),
      (∀ s ∈ acc.1, ∃ sql, s = Stmt.createUniqueIndex N sql) →
      ∀ s ∈ (cks.foldl (candidateKeyStep N) acc).1,
        ∃ sql, s = Stmt.createUniqueIndex N sql := by
  intro cks
  induction cks with
  | nil => intro acc hacc s hs; exact hacc s hs
  | cons ck rest ih =>
    intro acc hacc s hs
    refine ih (candidateKeyStep N acc ck) ?_ s hs
    intro t ht
    unfold candidateKeyStep at ht
    dsimp only at ht
    rcases List.mem_append.mp ht with h | h
    · exact hacc t h
    · rcases List.mem_singleton.mp h with rfl
      exact ⟨_, rfl⟩

theorem candidateKeyStmts_tagged (N : String) (iuk : Nat)
    (cks : List (String × List String)) :
    ∀ s ∈ (candidateKeyStmts N iuk cks).1, stmtTable s = some N := by
  intro s hs
  obtain ⟨sql, rfl⟩ := candidateKeyStmts_mem N cks ([], iuk) (by simp) s hs
  rfl

theorem candidateKeyStmts_all (N : String) (iuk : Nat)
    (cks : List (String × List String)) :
    ((candidateKeyStmts N iuk cks).1).all (isIndexFor N) = true := by
  rw [List.all_eq_true]
  intro s hs
  obtain ⟨sql, rfl⟩ := candidateKeyStmts_mem N cks ([], iuk) (by simp) s hs
  simp [isIndexFor]

/-- The statements appended for one freshly seen table form a well-shaped
segment once the comments are filtered away. -/
theorem tableStmts_fresh_segment (N : String) (cs : List Stmt) (sql : String)
    (strs : List String) (iuk : Nat) (cks : List (String × List String))
    (hcs : ∀ s ∈ cs, stmtTable s = none) :
    ∀ T, tableStmts T (cs ++ [Stmt.createTable N sql]
        ++ strs.map (Stmt.insertInto N) ++ (candidateKeyStmts N iuk cks).1)
      = if N = T then Stmt.createTable N sql
          :: (strs.map (Stmt.insertInto N) ++ (candidateKeyStmts N iuk cks).1)
        else [] := by
  intro T
  rw [tableStmts_append, tableStmts_append, tableStmts_append]
  rw [tableStmts_none T cs hcs]
  rw [tableStmts_tagged T N _ (insertStmts_tagged N strs)]
  rw [tableStmts_tagged T N _ (candidateKeyStmts_tagged N iuk cks)]
  have hcreate : tableStmts T [Stmt.createTable N sql]
      = if N = T then [Stmt.createTable N sql] else [] := by
    apply tableStmts_tagged
    intro s hs
    rcases List.mem_singleton.mp hs with rfl
    rfl
  rw [hcreate]
  split_ifs with he <;> simp

theorem processTable_skip (env : LobEnv) (fuel verbose : Nat) (sn : String)
    (st : EmitSt) (tab : TableMeta)
    (h : st.seen_tables.contains tab.name = true) :
    processTable env fuel verbose sn st tab
      = { st with rep_tables := setInsertPair st.rep_tables (sn, tab.name) } := by
  unfold processTable
  rw [if_pos h]

theorem tableComments_none (verbose : Nat) (tab : TableMeta) :
    ∀ s ∈ tableComments verbose tab, stmtTable s = none := by
  intro s hs
  unfold tableComments at hs
  split_ifs at hs with hv
  · rcases List.mem_cons.mp hs with rfl | hs
    · rfl
    · rcases List.mem_singleton.mp hs with rfl
      rfl
  · simp at hs

/-- The fields of the state after processing one fresh table. -/
theorem processTable_fresh (env : LobEnv) (fuel verbose : Nat) (sn : String)
    (st : EmitSt) (tab : TableMeta)
    (h : ¬ st.seen_tables.contains tab.name = true) :
    processTable env fuel verbose sn st tab
      = { dtt := (table_columns_fold sn st.dtt tab).1
          seen_tables := st.seen_tables ++ [tab.name]
          rep_tables := st.rep_tables
          table_first_schema :=
            if ((List.lookup tab.name st.table_first_schema).getD "").isEmpty
            then assocSet tab.name sn st.table_first_schema
            else st.table_first_schema
          iuk := (candidateKeyStmts tab.name st.iuk tab.candidateKeys).2
          out := st.out ++ (tableComments verbose tab
            ++ [Stmt.createTable tab.name (tableCreateSql sn st.dtt tab)]
            ++ (tableInsertStrs env fuel sn st.dtt tab).map
                (Stmt.insertInto tab.name)
            ++ (candidateKeyStmts tab.name st.iuk tab.candidateKeys).1) } := by
  unfold processTable
  rw [if_neg h]

/-- Preservation of the walker invariant by one table. -/
theorem EmitInv_processTable (env : LobEnv) (fuel verbose : Nat) (sn : String)
    (st : EmitSt) (tab : TableMeta) (hinv : EmitInv st) :
    EmitInv (processTable env fuel verbose sn st tab) := by
  by_cases hseen : st.seen_tables.contains tab.name = true
  · rw [processTable_skip env fuel verbose sn st tab hseen]
    exact hinv
  · rw [processTable_fresh env fuel verbose sn st tab hseen]
    intro T
    have hseg := tableStmts_fresh_segment tab.name
      (tableComments verbose tab) (tableCreateSql sn st.dtt tab)
      (tableInsertStrs env fuel sn st.dtt tab) st.iuk
      tab.candidateKeys (tableComments_none verbose tab) T
    by_cases hT : tab.name = T
    · subst hT
      have hold : tableStmts tab.name st.out = [] :=
        (hinv tab.name).2 (by simpa using hseen)
    -- the fresh segment is the whole contribution for this table
      constructor
      · intro _
        dsimp only
        rw [tableStmts_append, hold, hseg, if_pos rfl]
        exact ⟨tableCreateSql sn st.dtt tab,
          (tableInsertStrs env fuel sn st.dtt tab).map (Stmt.insertInto tab.name),
          (candidateKeyStmts tab.name st.iuk tab.candidateKeys).1,
          by simp, insertStmts_all _ _, candidateKeyStmts_all _ _ _⟩
      · intro hc
        dsimp only at hc
        simp at hc
    · constructor
      · intro hc
        dsimp only at hc ⊢
        rw [tableStmts_append, hseg, if_neg hT, List.append_nil]
        have hc' : st.seen_tables.contains T = true := by
          simp at hc
          rcases hc with hc | hc
          · simpa using hc
          · exact absurd hc.symm hT
        exact (hinv T).1 hc'
      · intro hc
        dsimp only at hc ⊢
        rw [tableStmts_append, hseg, if_neg hT, List.append_nil]
        have hc' : st.seen_tables.contains T = false := by
          simp at hc ⊢
          exact hc.1
        exact (hinv T).2 hc'

theorem EmitInv_out_comments (st : EmitSt) (cs : List Stmt)
    (hcs : ∀ s ∈ cs, stmtTable s = none) (hinv : EmitInv st) :
    EmitInv { st with out := st.out ++ cs } := by
  intro T
  have h := hinv T
  constructor
  · intro hc
    dsimp only at hc ⊢
    rw [tableStmts_append, tableStmts_none T cs hcs, List.append_nil]
    exact h.1 hc
  · intro hc
    dsimp only at hc ⊢
    rw [tableStmts_append, tableStmts_none T cs hcs, List.append_nil]
    exact h.2 hc

theorem EmitInv_processSchema (env : LobEnv) (fuel verbose : Nat)
    (filt : String → Bool) (st : EmitSt) (sch : SchemaMeta)
    (hinv : EmitInv st) :
    EmitInv (processSchema env fuel verbose filt st sch) := by
  unfold processSchema
  split_ifs with hf hv
  · exact hinv
  · dsimp only
    refine foldl_preserves EmitInv (processTable env fuel verbose sch.name)
      (fun s t hp => EmitInv_processTable env fuel verbose sch.name s t hp)
      sch.tables _ ?_
    exact EmitInv_out_comments st _ (by
      intro s hs
      rcases List.mem_cons.mp hs with rfl | hs
      · rfl
      · rcases List.mem_singleton.mp hs with rfl
        rfl) hinv
  · dsimp only
    refine foldl_preserves EmitInv (processTable env fuel verbose sch.name)
      (fun s t hp => EmitInv_processTable env fuel verbose sch.name s t hp)
      sch.tables _ ?_
    exact EmitInv_out_comments st [] (by simp) hinv

theorem EmitInv_tree_to_sql (md : Metadata) (filt : String → Bool)
    (env : LobEnv) (fuel verbose : Nat) (dtt0 : IDA_SIARDdatatype_table) :
    EmitInv (tree_to_sql md filt env fuel verbose dtt0) := by
  unfold tree_to_sql
  dsimp only
  refine foldl_preserves EmitInv (processSchema env fuel verbose filt)
    (fun s sch hp => EmitInv_processSchema env fuel verbose filt s sch hp)
    md.schemas _ ?_
  intro T
  constructor
  · intro hc
    simp at hc
  · intro _
    apply tableStmts_none
    intro s hs
    rcases List.mem_cons.mp hs with rfl | hs
    · rfl
    · rcases List.mem_singleton.mp hs with rfl
      rfl

/-- C6.  For every metadata tree, filter, environment and starting table
state, and for every table name `T`, the statement stream restricted to `T`
is either empty or has the shape `CREATE TABLE` first, then only
`INSERT INTO` statements, then only `CREATE UNIQUE INDEX` statements — so
the `CREATE TABLE` of a table precedes all its `INSERT`s and all its
`INSERT`s precede all its `CREATE UNIQUE INDEX`es in the output stream. -/
theorem statement_order_correct (md : Metadata) (filt : String → Bool)
    (env : LobEnv) (fuel verbose : Nat) (dtt0 : IDA_SIARDdatatype_table)
    (T : String) :
    tableStmts T (tree_to_sql md filt env fuel verbose dtt0).out = []
    ∨ SegShape T (tableStmts T (tree_to_sql md filt env fuel verbose dtt0).out) := by
  have h := EmitInv_tree_to_sql md filt env fuel verbose dtt0 T
  by_cases hc : (tree_to_sql md filt env fuel verbose dtt0).seen_tables.contains T = true
  · exact Or.inr (h.1 hc)
  · exact Or.inl (h.2 (by simpa using hc))

theorem setInsertPair_mem_mono (l : List (String × String))
    (p q : String × String) (h : q ∈ l) : q ∈ setInsertPair l p := by
  unfold setInsertPair
  split_ifs with hc
  · exact h
  · exact List.mem_append_left _ h

theorem processTable_seen_mono (env : LobEnv) (fuel verbose : Nat)
    (sn : String) (st : EmitSt) (tab : TableMeta) (T : String)
    (h : st.seen_tables.contains T = true) :
    (processTable env fuel verbose sn st tab).seen_tables.contains T = true := by
  unfold processTable
  split_ifs <;>
    first
      | exact h
      | · simp only [EmitSt.mk.injEq] at h ⊢
          simp at h ⊢
          exact Or.inl h

theorem processTable_sees_self (env : LobEnv) (fuel verbose : Nat)
    (sn : String) (st : EmitSt) (tab : TableMeta) :
    (processTable env fuel verbose sn st tab).seen_tables.contains tab.name
      = true := by
  unfold processTable
  split_ifs <;> first | assumption | simp

theorem processTable_rep_mono (env : LobEnv) (fuel verbose : Nat)
    (sn : String) (st : EmitSt) (tab : TableMeta) (p : String × String)
    (h : p ∈ st.rep_tables) :
    p ∈ (processTable env fuel verbose sn st tab).rep_tables := by
  unfold processTable
  split_ifs <;> first | exact setInsertPair_mem_mono _ _ _ h | exact h

theorem processSchema_seen_mono (env : LobEnv) (fuel verbose : Nat)
    (filt : String → Bool) (st : EmitSt) (sch : SchemaMeta) (T : String)
    (h : st.seen_tables.contains T = true) :
    (processSchema env fuel verbose filt st sch).seen_tables.contains T
      = true := by
  unfold processSchema
  split_ifs with hf hv
  · exact h
  · dsimp only
    exact foldl_preserves (fun s => s.seen_tables.contains T = true)
      (processTable env fuel verbose sch.name)
      (fun s t hp => processTable_seen_mono env fuel verbose sch.name s t T hp)
      sch.tables
      { st with out := st.out ++
          [Stmt.comment ("-- schema=" ++ String.mk [sqc] ++ sch.name
            ++ String.mk [sqc]),
           Stmt.comment ("-- no. of tables=" ++ toString sch.tables.length)] } h
  · dsimp only
    exact foldl_preserves (fun s => s.seen_tables.contains T = true)
      (processTable env fuel verbose sch.name)
      (fun s t hp => processTable_seen_mono env fuel verbose sch.name s t T hp)
      sch.tables { st with out := st.out ++ [] } h

theorem processSchema_rep_mono (env : LobEnv) (fuel verbose : Nat)
    (filt : String → Bool) (st : EmitSt) (sch : SchemaMeta)
    (p : String × String) (h : p ∈ st.rep_tables) :
    p ∈ (processSchema env fuel verbose filt st sch).rep_tables := by
  unfold processSchema
  split_ifs with hf hv
  · exact h
  · dsimp only
    exact foldl_preserves (fun s => p ∈ s.rep_tables)
      (processTable env fuel verbose sch.name)
      (fun s t hp => processTable_rep_mono env fuel verbose sch.name s t p hp)
      sch.tables
      { st with out := st.out ++
          [Stmt.comment ("-- schema=" ++ String.mk [sqc] ++ sch.name
            ++ String.mk [sqc]),
           Stmt.comment ("-- no. of tables=" ++ toString sch.tables.length)] } h
  · dsimp only
    exact foldl_preserves (fun s => p ∈ s.rep_tables)
      (processTable env fuel verbose sch.name)
      (fun s t hp => processTable_rep_mono env fuel verbose sch.name s t p hp)
      sch.tables { st with out := st.out ++ [] } h

theorem tables_fold_sees (env : LobEnv) (fuel verbose : Nat) (sn : String)
    (T : String) :
    ∀ (tabs : List TableMeta) (st : EmitSt),
      tabs.any (fun t => t.name == T) = true →
      ((tabs.foldl (processTable env fuel verbose sn) st).seen_tables.contains T)
        = true := by
  intro tabs
  induction tabs with
  | nil => intro st h; simp at h
  | cons tab rest ih =>
    intro st h
    rw [List.foldl_cons]
    by_cases h1 : tab.name = T
    · subst h1
      exact foldl_preserves (fun s => s.seen_tables.contains tab.name = true)
        (processTable env fuel verbose sn)
        (fun s t hp => processTable_seen_mono env fuel verbose sn s t tab.name hp)
        rest _ (processTable_sees_self env fuel verbose sn st tab)
    · have h2 : rest.any (fun t => t.name == T) = true := by
        simp only [List.any_cons, Bool.or_eq_true] at h
        rcases h with hx | hx
        · exact absurd (by simpa using hx) h1
        · exact hx
      exact ih _ h2

theorem tables_fold_collides (env : LobEnv) (fuel verbose : Nat) (sn : String)
    (T : String) :
    ∀ (tabs : List TableMeta) (st : EmitSt),
      st.seen_tables.contains T = true →
      tabs.any (fun t => t.name == T) = true →
      (sn, T) ∈ (tabs.foldl (processTable env fuel verbose sn) st).rep_tables := by
  intro tabs
  induction tabs with
  | nil => intro st _ h; simp at h
  | cons tab rest ih =>
    intro st hseen h
    rw [List.foldl_cons]
    by_cases h1 : tab.name = T
    · subst h1
      have hskip := processTable_skip env fuel verbose sn st tab hseen
      refine foldl_preserves (fun s => (sn, tab.name) ∈ s.rep_tables)
        (processTable env fuel verbose sn)
        (fun s t hp => processTable_rep_mono env fuel verbose sn s t _ hp)
        rest _ ?_
      rw [hskip]
      dsimp only
      unfold setInsertPair
      split_ifs with hc
      · simpa using hc
      · simp
    · have h2 : rest.any (fun t => t.name == T) = true := by
        simp only [List.any_cons, Bool.or_eq_true] at h
        rcases h with hx | hx
        · exact absurd (by simpa using hx) h1
        · exact hx
      exact ih _ (processTable_seen_mono env fuel verbose sn st tab T hseen) h2

theorem processSchema_sees (env : LobEnv) (fuel verbose : Nat)
    (filt : String → Bool) (st : EmitSt) (sch : SchemaMeta) (T : String)
    (hf : filt sch.name = true)
    (hT : sch.tables.any (fun t => t.name == T) = true) :
    (processSchema env fuel verbose filt st sch).seen_tables.contains T
      = true := by
  unfold processSchema
  rw [if_neg (by simp [hf])]
  split_ifs with hv <;>
    · dsimp only
      exact tables_fold_sees env fuel verbose sch.name T sch.tables _ hT

theorem processSchema_collides (env : LobEnv) (fuel verbose : Nat)
    (filt : String → Bool) (st : EmitSt) (sch : SchemaMeta) (T : String)
    (hseen : st.seen_tables.contains T = true)
    (hf : filt sch.name = true)
    (hT : sch.tables.any (fun t => t.name == T) = true) :
    (sch.name, T) ∈ (processSchema env fuel verbose filt st sch).rep_tables := by
  unfold processSchema
  rw [if_neg (by simp [hf])]
  split_ifs with hv <;>
    · dsimp only
      exact tables_fold_collides env fuel verbose sch.name T sch.tables _
        hseen hT

theorem filter_isCreate_of_inserts (T N : String) (l : List Stmt)
    (h : l.all (isInsertFor N) = true) : l.filter (isCreateFor T) = [] := by
  apply List.filter_eq_nil_iff.mpr
  intro s hs
  have := List.all_eq_true.mp h s hs
  cases s <;> simp [isInsertFor] at this ⊢
  all_goals simp [isCreateFor]

theorem filter_isCreate_of_indexes (T N : String) (l : List Stmt)
    (h : l.all (isIndexFor N) = true) : l.filter (isCreateFor T) = [] := by
  apply List.filter_eq_nil_iff.mpr
  intro s hs
  have := List.all_eq_true.mp h s hs
  cases s <;> simp [isIndexFor] at this ⊢
  all_goals simp [isCreateFor]

theorem filter_isCreate_tableStmts (T : String) (l : List Stmt) :
    l.filter (isCreateFor T) = (tableStmts T l).filter (isCreateFor T) := by
  unfold tableStmts
  rw [List.filter_filter]
  apply List.filter_congr
  intro s _
  cases s with
  | comment t => simp [isCreateFor, stmtTable]
  | createTable t sql =>
    by_cases h : t = T <;> simp [isCreateFor, stmtTable, h]
  | insertInto t sql => simp [isCreateFor, stmtTable]
  | createUniqueIndex t sql => simp [isCreateFor, stmtTable]

theorem segShape_create_count (T : String) (l : List Stmt)
    (h : SegShape T l) : (l.filter (isCreateFor T)).length = 1 := by
  obtain ⟨sql, ins, idx, rfl, hins, hidx⟩ := h
  rw [List.filter_cons, List.filter_append]
  rw [filter_isCreate_of_inserts T T ins hins,
    filter_isCreate_of_indexes T T idx hidx]
  simp [isCreateFor]

/-- C7.  If two filter-matching schemas both define a table named `T`
(`schA` earlier in iteration order, `schB` later), then the output contains
exactly one `CREATE TABLE` for `T`; the name `T` is already registered as
seen during the first occurrence's schema; the later occurrence is recorded
as a collision `(schB.name, T)` in the replicated-table set (from which the
warning is printed at the end of the run); and a table whose name has
already been seen contributes nothing: it only records the collision,
leaving the output, the Data Type Table and every other field unchanged. -/
theorem duplicate_tables_correct (md : Metadata) (filt : String → Bool)
    (env : LobEnv) (fuel verbose : Nat) (dtt0 : IDA_SIARDdatatype_table)
    (T : String) (pre mid post : List SchemaMeta) (schA schB : SchemaMeta)
    (hmd : md.schemas = pre ++ schA :: (mid ++ schB :: post))
    (hfA : filt schA.name = true) (hfB : filt schB.name = true)
    (hTA : schA.tables.any (fun t => t.name == T) = true)
    (hTB : schB.tables.any (fun t => t.name == T) = true) :
    (((tree_to_sql md filt env fuel verbose dtt0).out.filter
        (isCreateFor T)).length = 1)
    ∧ (schB.name, T) ∈ (tree_to_sql md filt env fuel verbose dtt0).rep_tables
    ∧ (∀ (st : EmitSt) (sn : String) (tab : TableMeta),
        st.seen_tables.contains tab.name = true →
        processTable env fuel verbose sn st tab
          = { st with
              rep_tables := setInsertPair st.rep_tables (sn, tab.name) }) := by
  have hchain : ∀ st0 : EmitSt,
      (schB.name, T) ∈ (List.foldl (processSchema env fuel verbose filt) st0
          (pre ++ schA :: (mid ++ schB :: post))).rep_tables
      ∧ (List.foldl (processSchema env fuel verbose filt) st0
          (pre ++ schA :: (mid ++ schB :: post))).seen_tables.contains T
            = true := by
    intro st0
    rw [List.foldl_append, List.foldl_cons, List.foldl_append, List.foldl_cons]
    set st1 := List.foldl (processSchema env fuel verbose filt) st0 pre
    set st2 := processSchema env fuel verbose filt st1 schA with hst2
    set st3 := List.foldl (processSchema env fuel verbose filt) st2 mid
      with hst3
    set st4 := processSchema env fuel verbose filt st3 schB with hst4
    have hc2 : st2.seen_tables.contains T = true :=
      processSchema_sees env fuel verbose filt st1 schA T hfA hTA
    have hc3 : st3.seen_tables.contains T = true := by
      rw [hst3]
      exact foldl_preserves (fun s => s.seen_tables.contains T = true)
        (processSchema env fuel verbose filt)
        (fun s sch hp => processSchema_seen_mono env fuel verbose filt s sch T hp)
        mid st2 hc2
    have hrep4 : (schB.name, T) ∈ st4.rep_tables :=
      processSchema_collides env fuel verbose filt st3 schB T hc3 hfB hTB
    have hc4 : st4.seen_tables.contains T = true :=
      processSchema_seen_mono env fuel verbose filt st3 schB T hc3
    constructor
    · exact foldl_preserves (fun s => (schB.name, T) ∈ s.rep_tables)
        (processSchema env fuel verbose filt)
        (fun s sch hp => processSchema_rep_mono env fuel verbose filt s sch _ hp)
        post st4 hrep4
    · exact foldl_preserves (fun s => s.seen_tables.contains T = true)
        (processSchema env fuel verbose filt)
        (fun s sch hp => processSchema_seen_mono env fuel verbose filt s sch T hp)
        post st4 hc4
  have hrun : tree_to_sql md filt env fuel verbose dtt0
      = List.foldl (processSchema env fuel verbose filt)
          { dtt := md.schemas.foldl
              (fun d sch => add_complex_data_type d sch.name sch.types) dtt0
            out := [Stmt.comment ("-- siard version=" ++ md.version),
              Stmt.comment ("-- no. of schemas="
                ++ toString md.schemas.length)] }
          md.schemas := rfl
  have hinv := EmitInv_tree_to_sql md filt env fuel verbose dtt0
  rw [hrun] at hinv ⊢
  rw [hmd] at hinv ⊢
  refine ⟨?_, (hchain _).1, ?_⟩
  · have hshape := (hinv T).1 (hchain _).2
    rw [filter_isCreate_tableStmts]
    exact segShape_create_count T _ hshape
  · intro st sn tab h
    exact processTable_skip env fuel verbose sn st tab h

/-- Witness for C7 on a concrete metadata tree with two schemas `S1` and
`S2` both defining table `T`. -/
theorem duplicate_tables_correct_witness :
    (((tree_to_sql mdDup allSchemas envW 1 2
        IDA_SIARDdatatype_table.empty).out.filter (isCreateFor "T")).length = 1)
    ∧ ("S2", "T") ∈ (tree_to_sql mdDup allSchemas envW 1 2
        IDA_SIARDdatatype_table.empty).rep_tables := by
  have h := duplicate_tables_correct mdDup allSchemas envW 1 2
    IDA_SIARDdatatype_table.empty "T" [] [] []
    { name := "S1", tables := [{ name := "T" }] }
    { name := "S2", tables := [{ name := "T" }] }
    rfl rfl rfl (by decide) (by decide)
  exact ⟨h.1, h.2.1⟩

end Siard2Sql
